import Mathlib

/-!
Verification development for the Holopod repository (Go sources).

The definitions below are a shallow embedding of the Go code:
* `GoNet`    models the parts of Go's `net`/`netip` standard library that the
  repository calls (`ParseIP`, `ParseCIDR`, `IP.To4`, `IP.IsLoopback`,
  `IPNet.Contains`).  IPs are byte lists (length 4 or 16), exactly as in Go.
* `Config`   models `internal/isolation-runner/pkg/config/network_security.go`.
* `Validation` models `internal/bastion/pkg/validation/validation.go`.
* `Iptables` models `internal/bastion/pkg/iptables` (rule emission as data).
* `BastionService` models the `SetupChain` RPC handler.
* `NetworkPool` models `internal/bastion/pkg/networkpool`.
* `Lifecycle` models chain-name derivation in the isolation runner.
* `Manager`  models the container-manager heartbeat monitor and the `Run`
  stream's reaction to a heartbeat timeout.

Machine integers are modelled as `Nat` (bytes are kept `< 256` by
construction, 16-bit words likewise); fallible operations return `Option` or
`Except String`.
-/

namespace GoNet

/-- Split a character list on a separator, keeping empty components
(the behaviour of Go's `strings.Split` on single-character separators). -/
def splitOnChar (sep : Char) : List Char → List (List Char)
  | [] => [[]]
  | c :: cs =>
    let r := splitOnChar sep cs
    if c = sep then [] :: r
    else
      match r with
      | [] => [[c]]
      | g :: gs => (c :: g) :: gs

/-- Decimal value of a digit character, if it is one. -/
def digitVal (c : Char) : Option Nat :=
  if '0' ≤ c ∧ c ≤ '9' then some (c.toNat - '0'.toNat) else none

/-- Parse a non-empty all-digit character list as a decimal number. -/
def decDigits : List Char → Option Nat
  | [] => none
  | l => l.foldlM (fun acc c => (digitVal c).map (fun d => acc * 10 + d)) 0

/-- One dotted-decimal IPv4 field per `netip.ParseAddr`: 1–3 digits,
no leading zero, value ≤ 255. -/
def v4Field (l : List Char) : Option Nat := do
  if l.length = 0 ∨ 3 < l.length then none
  else if 1 < l.length ∧ l.head? = some '0' then none
  else
    let n ← decDigits l
    if n ≤ 255 then some n else none

/-- Go `netip.ParseAddr` on dotted-decimal IPv4: four fields separated by
dots; returns the four bytes. -/
def parseIPv4 (l : List Char) : Option (List Nat) :=
  match splitOnChar '.' l with
  | [a, b, c, d] => do
    let a ← v4Field a
    let b ← v4Field b
    let c ← v4Field c
    let d ← v4Field d
    some [a, b, c, d]
  | _ => none

/-- Hexadecimal value of a character, if it is a hex digit. -/
def hexVal (c : Char) : Option Nat :=
  if '0' ≤ c ∧ c ≤ '9' then some (c.toNat - '0'.toNat)
  else if 'a' ≤ c ∧ c ≤ 'f' then some (c.toNat - 'a'.toNat + 10)
  else if 'A' ≤ c ∧ c ≤ 'F' then some (c.toNat - 'A'.toNat + 10)
  else none

/-- One 16-bit IPv6 group: 1–4 hex digits. -/
def hexGroup (l : List Char) : Option Nat :=
  if l.length = 0 ∨ 4 < l.length then none
  else l.foldlM (fun acc c => (hexVal c).map (fun d => acc * 16 + d)) 0

/-- Parse a colon-separated group list into 16-bit words.  A dotted IPv4
embedding is allowed only in the final group of the whole address
(`allowDot`), contributing two words. -/
def groupsToWords (allowDot : Bool) : List (List Char) → Option (List Nat)
  | [] => some []
  | [g] =>
    if g.contains '.' then
      if allowDot then
        match parseIPv4 g with
        | some [a, b, c, d] => some [a * 256 + b, c * 256 + d]
        | _ => none
      else none
    else (hexGroup g).map (fun w => [w])
  | g :: rest => do
    if g.contains '.' then none
    else
      let w ← hexGroup g
      let ws ← groupsToWords allowDot rest
      some (w :: ws)

/-- Find the first `::` in an IPv6 literal, returning the parts before and
after it. -/
def splitElide : List Char → Option (List Char × List Char)
  | [] => none
  | ':' :: ':' :: rest => some ([], rest)
  | c :: rest => (splitElide rest).map (fun p => (c :: p.1, p.2))

/-- 16-bit words to bytes (big-endian within each word). -/
def wordsToBytes (ws : List Nat) : List Nat :=
  ws.flatMap (fun w => [w / 256, w % 256])

/-- Groups of a (possibly empty) side of a `::` elision; the empty side
contributes no groups, and no empty group may appear. -/
def sideGroups (l : List Char) : Option (List (List Char)) :=
  if l = [] then some []
  else
    let gs := splitOnChar ':' l
    if gs.any (fun g => g = []) then none else some gs

/-- Go `netip.ParseAddr` on IPv6 literals: full syntax with at most one
`::` elision and an optional embedded dotted IPv4 tail; zone suffixes
(`%`) are rejected, as `net.ParseCIDR`/`net.ParseIP` do. -/
def parseIPv6 (l : List Char) : Option (List Nat) :=
  if l.contains '%' then none
  else
    match splitElide l with
    | some (before, after) => do
      let lg ← sideGroups before
      let rg ← sideGroups after
      let lw ← groupsToWords (rg = []) lg
      let rw ← groupsToWords true rg
      if lw.length + rw.length ≤ 7 then
        some (wordsToBytes (lw ++ List.replicate (8 - lw.length - rw.length) 0 ++ rw))
      else none
    | none => do
      let gs ← sideGroups l
      let ws ← groupsToWords true gs
      if ws.length = 8 then some (wordsToBytes ws) else none

/-- Go's address-family dispatch: the first `.` or `:` decides the parse. -/
def dispatchV4 : List Char → Option Bool
  | [] => none
  | '.' :: _ => some true
  | ':' :: _ => some false
  | _ :: rest => dispatchV4 rest

/-- `net.ParseIP`: dotted literals yield a 4-byte IP, colon literals a
16-byte IP (observationally equivalent to Go, whose `To4`-normalising
operations erase the 4-vs-mapped-16 representation difference). -/
def parseIP (l : List Char) : Option (List Nat) :=
  match dispatchV4 l with
  | some true => parseIPv4 l
  | some false => parseIPv6 l
  | none => none

/-- `IP.To4`: the 4-byte view of an IP, when it has one. -/
def to4 (ip : List Nat) : Option (List Nat) :=
  if ip.length = 4 then some ip
  else if ip.length = 16 ∧ ip.take 10 = List.replicate 10 0 ∧
      (ip.drop 10).take 2 = [255, 255] then
    some (ip.drop 12)
  else none

/-- `IP.IsLoopback`: 127.0.0.0/8 for (To4-able) IPv4, `::1` for IPv6. -/
def isLoopback (ip : List Nat) : Bool :=
  match to4 ip with
  | some v4 => v4.head? = some 127
  | none => ip = List.replicate 15 0 ++ [1]

/-- An `*net.IPNet` as returned by `ParseCIDR`: the masked base address
(4 or 16 bytes) plus the prefix length. -/
structure IPNet where
  ip : List Nat
  maskLen : Nat
  deriving Repr, DecidableEq

/-- `net.CIDRMask`: the byte list of an `n`-bit prefix mask over
`bytes` bytes. -/
def cidrMask (n bytes : Nat) : List Nat :=
  (List.range bytes).map (fun i =>
    let b := min 8 (n - 8 * i)
    256 - 2 ^ (8 - b))

/-- Bytewise AND of an address with a mask. -/
def maskIP (ip m : List Nat) : List Nat :=
  List.zipWith (fun a b => a.land b) ip m

/-- Go `dtoi` as used for the CIDR prefix: decimal digits only (leading
zeros accepted), with the `0xFFFFFF` big cutoff. -/
def dtoi (l : List Char) : Option Nat := do
  let n ← decDigits l
  if n < 0xFFFFFF then some n else none

/-- Split a character list at the first occurrence of `sep`. -/
def splitFirst (sep : Char) : List Char → Option (List Char × List Char)
  | [] => none
  | c :: rest =>
    if c = sep then some ([], rest)
    else (splitFirst sep rest).map (fun p => (c :: p.1, p.2))

/-- `net.ParseCIDR`: address part via `ParseIP` semantics, prefix length
bounded by the address bit length; the returned network address is masked. -/
def parseCIDR (l : List Char) : Option IPNet := do
  let (addr, mask) ← splitFirst '/' l
  let ip ← parseIP addr
  let n ← dtoi mask
  if n ≤ 8 * ip.length then
    some { ip := maskIP ip (cidrMask n ip.length), maskLen := n }
  else none

/-- `IPNet.Contains`, including the `To4` normalisation of both the
network number and the queried IP (`networkNumberAndMask`). -/
def contains (n : IPNet) (ip : List Nat) : Bool :=
  let m0 := cidrMask n.maskLen n.ip.length
  let nnm : List Nat × List Nat :=
    match to4 n.ip with
    | some nn4 => (nn4, if m0.length = 16 then m0.drop 12 else m0)
    | none => (n.ip, m0)
  let ip4 := (to4 ip).getD ip
  decide (nnm.1.length = ip4.length) &&
    decide (List.zipWith (fun a b => a.land b) ip4 nnm.2 = nnm.1)

/-- String wrappers. -/
def parseIPStr (s : String) : Option (List Nat) := parseIP s.toList

def parseCIDRStr (s : String) : Option IPNet := parseCIDR s.toList

/-- `strings.TrimSpace`, character-level (these inputs are ASCII). -/
def goTrimSpace (s : String) : String :=
  ⟨((s.toList.dropWhile Char.isWhitespace).reverse.dropWhile Char.isWhitespace).reverse⟩

/-- `strings.ToLower`, character-level (these inputs are ASCII). -/
def goToLower (s : String) : String :=
  ⟨s.toList.map (fun c => if 'A' ≤ c ∧ c ≤ 'Z' then Char.ofNat (c.toNat + 32) else c)⟩

end GoNet

namespace Config

/-! Model of `internal/isolation-runner/pkg/config/network_security.go`. -/

open GoNet

structure WhitelistEntry where
  cidr : String
  ports : List String := []
  description : String := ""
  deriving Repr, DecidableEq

structure BlacklistEntry where
  cidr : String
  description : String := ""
  deriving Repr, DecidableEq

structure NetworkConfig where
  defaultPolicy : String := ""
  blockMetadata : Bool := false
  allowDns : Bool := false
  dnsServers : List String := []
  whitelist : List WhitelistEntry := []
  blacklist : List BlacklistEntry := []
  deriving Repr, DecidableEq

/-- `MandatoryBlockedRanges`: always blocked, may never overlap a
whitelist entry. -/
def MandatoryBlockedRanges : List String :=
  ["127.0.0.0/8", "::1/128", "169.254.169.254/32", "169.254.0.0/16",
   "224.0.0.0/4", "240.0.0.0/4", "255.255.255.255/32", "0.0.0.0/8"]

/-- `PrivateRanges` (RFC 1918): blocked unless whitelisted. -/
def PrivateRanges : List String :=
  ["10.0.0.0/8", "172.16.0.0/12", "192.168.0.0/16"]

/-- `networksOverlap`: either network contains the first IP of the other. -/
def networksOverlap (n1 n2 : IPNet) : Bool :=
  contains n1 n2.ip || contains n2 n1.ip

/-- `fmt.Sscanf` with a `%d` verb scanning into a `uint32`: consumes an
optional plus sign and a digit run; a minus sign or an overflowing value is
a scan error.  Returns the value and the unconsumed rest. -/
def scanUint (l : List Char) : Option (Nat × List Char) :=
  let l := match l with | '+' :: rest => rest | _ => l
  let digits := l.takeWhile (fun c => decide ('0' ≤ c) && decide (c ≤ '9'))
  if digits = [] then none
  else
    match decDigits digits with
    | none => none
    | some n => if n < 2 ^ 32 then some (n, l.drop digits.length) else none

/-- The port-string checks of `ValidateWhitelistEntry`: single ports via
`Sscanf "%d"`, ranges via `Sscanf "%d-%d"`, both bounded to 1–65535 with
`end > start`. -/
def validatePortString (port : String) : Except String Unit :=
  let l := port.toList
  if l.contains '-' then
    match scanUint l with
    | none => .error "invalid port range"
    | some (s, rest) =>
      match rest with
      | '-' :: rest2 =>
        match scanUint rest2 with
        | none => .error "invalid port range"
        | some (e, _) =>
          if s = 0 ∨ s > 65535 then .error "port range start out of valid range"
          else if e = 0 ∨ e > 65535 then .error "port range end out of valid range"
          else if e ≤ s then .error "port range end must be greater than start"
          else .ok ()
      | _ => .error "invalid port range"
  else
    match scanUint l with
    | none => .error "invalid port"
    | some (n, _) =>
      if n = 0 ∨ n > 65535 then .error "port out of valid range"
      else .ok ()

def validatePortStrings : List String → Except String Unit
  | [] => .ok ()
  | p :: rest => do
    validatePortString p
    validatePortStrings rest

/-- `ValidateWhitelistEntry`: empty/unparseable CIDRs are rejected; the
literal strings `0.0.0.0/0` and `::/0` are accepted outright; any other
entry overlapping a mandatory blocked range is rejected; finally the
ports are checked. -/
def ValidateWhitelistEntry (e : WhitelistEntry) : Except String Unit :=
  if e.cidr = "" then .error "CIDR cannot be empty"
  else
    match parseCIDRStr e.cidr with
    | none => .error "invalid CIDR format"
    | some entryNet =>
      if e.cidr = "0.0.0.0/0" ∨ e.cidr = "::/0" then .ok ()
      else
        match MandatoryBlockedRanges.find? (fun blocked =>
            match parseCIDRStr blocked with
            | some blockedNet => networksOverlap entryNet blockedNet
            | none => false) with
        | some _ => .error "CIDR overlaps with forbidden range"
        | none => validatePortStrings e.ports

def validateWhitelist : List WhitelistEntry → Except String Unit
  | [] => .ok ()
  | e :: rest => do
    ValidateWhitelistEntry e
    validateWhitelist rest

/-- `createMandatoryBlacklist`: one blacklist entry per mandatory range. -/
def createMandatoryBlacklist : List BlacklistEntry :=
  MandatoryBlockedRanges.map (fun cidr =>
    { cidr := cidr, description := "MANDATORY BLOCK" })

/-- `filterPrivateRanges`: the private ranges not overlapped by any
(parseable) whitelist entry, as blacklist entries. -/
def filterPrivateRanges (whitelist : List WhitelistEntry) : List BlacklistEntry :=
  PrivateRanges.filterMap (fun privateRange =>
    match parseCIDRStr privateRange with
    | none => none
    | some privateNet =>
      let whitelisted := whitelist.any (fun e =>
        match parseCIDRStr e.cidr with
        | some entryNet => networksOverlap privateNet entryNet
        | none => false)
      if whitelisted then none
      else some { cidr := privateRange,
                  description := "Private IP range (blocked unless whitelisted)" })

/-- The CIDR normalisation of `deduplicateBlacklist`
(`strings.ToLower(strings.TrimSpace(...))`). -/
def normCidr (s : String) : String := GoNet.goToLower (GoNet.goTrimSpace s)

/-- `deduplicateBlacklist`: keep the first entry per normalised CIDR. -/
def deduplicateBlacklist (blacklist : List BlacklistEntry) : List BlacklistEntry :=
  (blacklist.foldl (fun acc entry =>
    let cidr := normCidr entry.cidr
    if acc.1.contains cidr then acc
    else (cidr :: acc.1, entry :: acc.2)) ([], [])).2.reverse

/-- `EnforceSecurityRules`: forces `BlockMetadata`, validates the whitelist,
appends the mandatory blacklist and the non-whitelisted private ranges to
the blacklist and deduplicates it.  The Go function mutates the config in
place and returns an error; the model returns the updated config. -/
def EnforceSecurityRules (cfg : NetworkConfig) : Except String NetworkConfig := do
  let cfg := { cfg with blockMetadata := true }
  validateWhitelist cfg.whitelist
  let bl := cfg.blacklist ++ createMandatoryBlacklist
  let bl := bl ++ filterPrivateRanges cfg.whitelist
  .ok { cfg with blacklist := deduplicateBlacklist bl }

/-- The runner-side DNS-server check of `ValidateNetworkConfig`: the server
must parse as an IP and lie in no mandatory blocked range. -/
def validateDNSServers : List String → Except String Unit
  | [] => .ok ()
  | dns :: rest =>
    match parseIPStr dns with
    | none => .error "DNS server has invalid IP address"
    | some ip =>
      match MandatoryBlockedRanges.find? (fun blocked =>
          match parseCIDRStr blocked with
          | some blockedNet => contains blockedNet ip
          | none => false) with
      | some _ => .error "DNS server is in a forbidden range"
      | none => validateDNSServers rest

/-- `ValidateNetworkConfig`: security rules, then policy mode, then the
DNS servers. -/
def ValidateNetworkConfig (cfg : NetworkConfig) : Except String NetworkConfig := do
  let cfg ← EnforceSecurityRules cfg
  if GoNet.goToLower cfg.defaultPolicy = "allow" ∨ GoNet.goToLower cfg.defaultPolicy = "deny" then
    validateDNSServers cfg.dnsServers
    .ok cfg
  else .error "default policy must be allow or deny"

end Config

namespace Validation

/-! Model of `internal/bastion/pkg/validation/validation.go`. -/

open GoNet

/-- The anchored regex `ISO-[a-f0-9]{16}` as a total character check. -/
def chainNameMatches (s : String) : Bool :=
  match s.toList with
  | 'I' :: 'S' :: 'O' :: '-' :: rest =>
    decide (rest.length = 16) && rest.all (fun c =>
      (decide ('a' ≤ c) && decide (c ≤ 'f')) || (decide ('0' ≤ c) && decide (c ≤ '9')))
  | _ => false

def ValidateChainName (chainName : String) : Except String Unit :=
  if chainName.length > 28 then .error "chain name too long"
  else if chainNameMatches chainName then .ok ()
  else .error "chain name must match pattern ISO-16hex"

/-- `isPrivateIP` on a 4-byte IP. -/
def isPrivateIP (ip : List Nat) : Bool :=
  match ip with
  | a :: b :: _ =>
    decide (a = 10) ||
    (decide (a = 172) && decide (16 ≤ b) && decide (b ≤ 31)) ||
    (decide (a = 192) && decide (b = 168))
  | _ => false

/-- `ValidateContainerIP`: parseable, To4-able, RFC1918. -/
def ValidateContainerIP (ipStr : String) : Except String (List Nat) :=
  match parseIPStr ipStr with
  | none => .error "invalid IP address"
  | some ip =>
    match to4 ip with
    | none => .error "only IPv4 addresses supported"
    | some ip4 =>
      if isPrivateIP ip4 then .ok ip4
      else .error "IP address is not private RFC1918"

def ValidateCIDR (cidr : String) : Except String IPNet :=
  match parseCIDRStr cidr with
  | none => .error "invalid CIDR notation"
  | some ipNet => .ok ipNet

def ValidatePort (port : Nat) : Except String Unit :=
  if port = 0 ∨ port > 65535 then .error "invalid port number"
  else .ok ()

/-- `ValidateDNSServer`: parseable; not loopback; for IPv4 (`To4`-able)
addresses also not 169.254.0.0/16 and not one of the three metadata
literals.  IPv6 addresses undergo only the loopback check. -/
def ValidateDNSServer (dnsIP : String) : Except String (List Nat) :=
  match parseIPStr dnsIP with
  | none => .error "invalid DNS server IP"
  | some ip =>
    if isLoopback ip then .error "loopback DNS servers not allowed"
    else
      match to4 ip with
      | some ip4 =>
        if ip4.head? = some 169 ∧ (ip4.drop 1).head? = some 254 then
          .error "link-local DNS servers not allowed"
        else if dnsIP = "169.254.169.254" ∨ dnsIP = "168.63.129.16" ∨
            dnsIP = "100.100.100.200" then
          .error "cloud metadata IPs not allowed as DNS servers"
        else .ok ip
      | none => .ok ip

def ValidatePolicyMode (policy : String) : Except String Unit :=
  if policy = "allow" ∨ policy = "deny" then .ok ()
  else .error "policy must be allow or deny"

end Validation

namespace Iptables

/-! Model of `internal/bastion/pkg/iptables` (the code in the `iptables`
package).  Rule emission is modelled as data: every `iptables`/`ip6tables`
append performed by `ApplyRules` becomes a `Rule` value, in emission order.
Kernel-level command failures are environmental and are not modelled; the
model's failures are exactly the validation failures of the Go code. -/

open GoNet

inductive Fam
  | v4
  | v6
  deriving Repr, DecidableEq

/-- `pb.NetworkRule`. -/
structure NetworkRule where
  cidr : String
  ports : List Nat := []
  description : String := ""
  deriving Repr, DecidableEq

/-- `pb.NetworkPolicy`. -/
structure NetworkPolicy where
  policy : String
  blockMetadata : Bool := false
  allowDns : Bool := false
  dnsServers : List String := []
  whitelist : List NetworkRule := []
  blacklist : List NetworkRule := []
  deriving Repr, DecidableEq

/-- One appended filter rule: `-A chain [-d dest] [-p proto --dport dport] -j jump`
in the given address family. -/
structure Rule where
  fam : Fam
  chain : String
  dest : Option String := none
  proto : Option String := none
  dport : Option String := none
  jump : String
  deriving Repr, DecidableEq

/-- `detectIPVersion`: strip any `/suffix`, parse, classify by `To4`. -/
def detectIPVersion (cidr : String) : Except String Fam :=
  let l := cidr.toList
  let ipStr := if l.contains '/' then (splitOnChar '/' l).headD [] else l
  match parseIP ipStr with
  | none => .error "invalid IP address"
  | some ip =>
    match to4 ip with
    | some _ => .ok .v4
    | none => .ok .v6

/-- Outcome triple of a rule-emitting step: rules appended (in order),
the count the Go code accumulated, and the first error. -/
abbrev Emit := List Rule × Nat × Option String

/-- Sequencing of emission steps: later steps run only when no error has
occurred; emitted rules and counts accumulate. -/
def seqEmit (a : Emit) (b : Unit → Emit) : Emit :=
  match a.2.2 with
  | some _ => a
  | none =>
    let r := b ()
    (a.1 ++ r.1, a.2.1 + r.2.1, r.2.2)

/-- The per-port loop of `applyNetworkRule`: each valid port yields a
tcp and a udp rule; an invalid port aborts (earlier ports stay emitted). -/
def portLoop (fam : Fam) (chain cidr action : String) : List Nat → Emit
  | [] => ([], 0, none)
  | p :: rest =>
    match Validation.ValidatePort p with
    | .error e => ([], 0, some e)
    | .ok _ =>
      let here := ["tcp", "udp"].map (fun proto =>
        { fam := fam, chain := chain, dest := some cidr, proto := some proto,
          dport := some (toString p), jump := action : Rule })
      seqEmit (here, 2, none) (fun _ => portLoop fam chain cidr action rest)

/-- `applyNetworkRule`: validate the CIDR, detect its family, then either a
single rule (no ports) or one rule per port per protocol in tcp, udp. -/
def applyNetworkRule (chain : String) (rule : NetworkRule) (action : String) : Emit :=
  match Validation.ValidateCIDR rule.cidr with
  | .error e => ([], 0, some e)
  | .ok _ =>
    match detectIPVersion rule.cidr with
    | .error e => ([], 0, some e)
    | .ok fam =>
      if rule.ports = [] then
        ([{ fam := fam, chain := chain, dest := some rule.cidr, jump := action }], 1, none)
      else portLoop fam chain rule.cidr action rule.ports

/-- The whitelist/blacklist loop of `ApplyRules`: on a failing entry the
entry's own partial emissions happen but its count is not added (the Go
code returns `rulesApplied` without adding the failing call's count). -/
def ruleListLoop (chain : String) (action : String) : List NetworkRule → Emit
  | [] => ([], 0, none)
  | r :: rest =>
    let a := applyNetworkRule chain r action
    match a.2.2 with
    | some e => (a.1, 0, some e)
    | none => seqEmit a (fun _ => ruleListLoop chain action rest)

/-- Step 1 of `ApplyRules`: drop the engine's default-bridge subnets;
subnets whose family cannot be detected are skipped. -/
def bridgeRules (chain : String) (bridgeSubnets : List String) : List Rule :=
  bridgeSubnets.filterMap (fun subnet =>
    match detectIPVersion subnet with
    | .error _ => none
    | .ok fam => some { fam := fam, chain := chain, dest := some subnet, jump := "DROP" })

/-- Step 2 of `ApplyRules`: metadata/security drops (IPv4 then IPv6), with
the engine-resolver accept prepended when DNS is allowed. -/
def metadataRules (chain : String) (allowDns : Bool) : List Rule :=
  (if allowDns then
    ["udp", "tcp"].map (fun proto =>
      { fam := .v4, chain := chain, dest := some "127.0.0.11/32", proto := some proto,
        dport := some "53", jump := "ACCEPT" : Rule })
  else []) ++
  [{ fam := .v4, chain := chain, dest := some "169.254.169.254", jump := "DROP" },
   { fam := .v4, chain := chain, dest := some "168.63.129.16", jump := "DROP" },
   { fam := .v4, chain := chain, dest := some "100.100.100.200", jump := "DROP" },
   { fam := .v4, chain := chain, dest := some "169.254.0.0/16", jump := "DROP" },
   { fam := .v4, chain := chain, dest := some "127.0.0.0/8", jump := "DROP" },
   { fam := .v4, chain := chain, proto := some "udp", dport := some "67:68", jump := "DROP" },
   { fam := .v6, chain := chain, dest := some "::1/128", jump := "DROP" },
   { fam := .v6, chain := chain, dest := some "fe80::/10", jump := "DROP" },
   { fam := .v6, chain := chain, dest := some "ff00::/8", jump := "DROP" }]

/-- The per-DNS-server loop of step 3. -/
def dnsServerLoop (chain : String) : List String → Emit
  | [] => ([], 0, none)
  | dns :: rest =>
    match Validation.ValidateDNSServer dns with
    | .error e => ([], 0, some e)
    | .ok _ =>
      match detectIPVersion dns with
      | .error e => ([], 0, some e)
      | .ok fam =>
        let here := ["udp", "tcp"].map (fun proto =>
          { fam := fam, chain := chain, dest := some dns, proto := some proto,
            dport := some "53", jump := "ACCEPT" : Rule })
        seqEmit (here, 2, none) (fun _ => dnsServerLoop chain rest)

/-- Step 3 of `ApplyRules`: generic port-53 accepts in both families, then
validated per-server accepts. -/
def dnsRules (chain : String) (dnsServers : List String) : Emit :=
  let generic := ["udp", "tcp"].flatMap (fun proto =>
    [{ fam := .v4, chain := chain, proto := some proto, dport := some "53",
       jump := "ACCEPT" : Rule },
     { fam := .v6, chain := chain, proto := some proto, dport := some "53",
       jump := "ACCEPT" : Rule }])
  seqEmit (generic, 4, none) (fun _ => dnsServerLoop chain dnsServers)

/-- The final default-verdict rules (IPv4 then IPv6). -/
def defaultRules (chain : String) (policy : String) : List Rule :=
  let action := if policy = "deny" then "DROP" else "ACCEPT"
  [{ fam := .v4, chain := chain, jump := action },
   { fam := .v6, chain := chain, jump := action }]

/-- `ApplyRules`: policy-mode validation, then the emission sequence of the
Go function.  Returns the rules appended in order, the reported count, and
the first validation error (if any). -/
def ApplyRules (bridgeSubnets : List String) (chain : String) (policy : NetworkPolicy) : Emit :=
  match Validation.ValidatePolicyMode policy.policy with
  | .error e => ([], 0, some e)
  | .ok _ =>
    let br := bridgeRules chain bridgeSubnets
    seqEmit (br, br.length, none) (fun _ =>
      seqEmit (if policy.blockMetadata then
          let md := metadataRules chain policy.allowDns
          (md, md.length, none)
        else ([], 0, none)) (fun _ =>
        seqEmit (if policy.allowDns then dnsRules chain policy.dnsServers
          else ([], 0, none)) (fun _ =>
          seqEmit (if policy.policy = "deny" ∧ policy.whitelist ≠ [] then
              ruleListLoop chain "ACCEPT" policy.whitelist
            else ([], 0, none)) (fun _ =>
            seqEmit (if policy.policy = "allow" ∧ policy.blacklist ≠ [] then
                ruleListLoop chain "DROP" policy.blacklist
              else ([], 0, none)) (fun _ =>
              let df := defaultRules chain policy.policy
              (df, 2, none))))))

/-- The default subnet list used when the engine cannot be queried
(`dockerBridgeSubnets` fallback). -/
def defaultBridgeSubnets : List String := ["172.17.0.0/16"]

/-! Packet-verdict semantics of an emitted rule sequence (first match wins,
as in an iptables chain). -/

/-- A packet as far as the emitted matches can observe it. -/
structure Packet where
  fam : Fam
  dst : List Nat
  proto : String
  dport : Nat
  deriving Repr, DecidableEq

/-- An `-d` argument matches: CIDR containment, or host equality for a
bare address (an implicit full-length prefix). -/
def destMatches (d : String) (ip : List Nat) : Bool :=
  match parseCIDRStr d with
  | some n => contains n ip
  | none =>
    match parseIPStr d with
    | some a => contains { ip := a, maskLen := 8 * a.length } ip
    | none => false

/-- A `--dport` argument matches: `lo:hi` range or single port. -/
def dportMatches (s : String) (p : Nat) : Bool :=
  match splitFirst ':' s.toList with
  | some (a, b) =>
    match decDigits a, decDigits b with
    | some lo, some hi => decide (lo ≤ p) && decide (p ≤ hi)
    | _, _ => false
  | none =>
    match decDigits s.toList with
    | some n => decide (p = n)
    | none => false

def ruleMatches (r : Rule) (p : Packet) : Bool :=
  decide (r.fam = p.fam) &&
  (match r.dest with | none => true | some d => destMatches d p.dst) &&
  (match r.proto with | none => true | some pr => decide (pr = p.proto)) &&
  (match r.dport with | none => true | some s => dportMatches s p.dport)

/-- First-match verdict of a rule sequence on a packet. -/
def verdict (rules : List Rule) (p : Packet) : Option String :=
  (rules.find? (fun r => ruleMatches r p)).map (fun r => r.jump)

end Iptables

namespace Iptables

/-! A small operational model of the host packet filter, for `SetupChain`
and `CleanupChain`.  Each family has a set of user chains (name → rules)
and a FORWARD chain holding the per-container jump rules.  Commands that
the kernel would reject (flushing or deleting a missing chain, deleting a
referenced chain, deleting an absent FORWARD rule) report failure, which
`CleanupChain` ignores. -/

/-- A `FORWARD` jump rule `-s src -j jump`. -/
structure ForwardEntry where
  src : String
  jump : String
  deriving Repr, DecidableEq

structure Firewall where
  chains4 : List (String × List Rule) := []
  chains6 : List (String × List Rule) := []
  forward4 : List ForwardEntry := []
  forward6 : List ForwardEntry := []
  deriving Repr, DecidableEq

def assocLookup {α : Type} (k : String) : List (String × α) → Option α
  | [] => none
  | (k2, v) :: rest => if k2 = k then some v else assocLookup k rest

def assocInsert {α : Type} (k : String) (v : α) : List (String × α) → List (String × α)
  | [] => [(k, v)]
  | (k2, v2) :: rest => if k2 = k then (k, v) :: rest else (k2, v2) :: assocInsert k v rest

def assocErase {α : Type} (k : String) (l : List (String × α)) : List (String × α) :=
  l.filter (fun p => p.1 ≠ k)

/-- Delete the first matching rule, as `iptables -D` does; reports whether
a rule was deleted. -/
def removeFirstForward (e : ForwardEntry) : List ForwardEntry → List ForwardEntry × Bool
  | [] => ([], false)
  | f :: rest =>
    if f = e then (rest, true)
    else
      let r := removeFirstForward e rest
      (f :: r.1, r.2)

/-- `iptables -F chain`: succeeds iff the chain exists. -/
def flushChain (chains : List (String × List Rule)) (name : String) :
    List (String × List Rule) × Bool :=
  match assocLookup name chains with
  | some _ => (assocInsert name [] chains, true)
  | none => (chains, false)

/-- `iptables -X chain`: succeeds iff the chain exists, is empty, and no
FORWARD rule jumps to it. -/
def deleteChain (chains : List (String × List Rule)) (forward : List ForwardEntry)
    (name : String) : List (String × List Rule) × Bool :=
  match assocLookup name chains with
  | some rules =>
    if rules = [] ∧ ¬ forward.any (fun f => f.jump = name) then
      (assocErase name chains, true)
    else (chains, false)
  | none => (chains, false)

/-- The FORWARD-jump removal of `CleanupChain`: only when a container IP
was supplied, in the detected family (defaulting to IPv4 when detection
fails); the `-D` failure when no such rule exists is ignored. -/
def removeForwardStage (chainName containerIP : String) (fw : Firewall) : Firewall :=
  if containerIP ≠ "" then
    let version := match detectIPVersion containerIP with
      | .ok v => v
      | .error _ => Fam.v4
    match version with
    | .v4 => { fw with forward4 :=
        (removeFirstForward { src := containerIP, jump := chainName } fw.forward4).1 }
    | .v6 => { fw with forward6 :=
        (removeFirstForward { src := containerIP, jump := chainName } fw.forward6).1 }
  else fw

/-- The flush-then-delete (`-F`, `-X`) of one family, errors ignored. -/
def cleanupStage (chainName : String) (chains : List (String × List Rule))
    (forward : List ForwardEntry) : List (String × List Rule) :=
  (deleteChain (flushChain chains chainName).1 forward chainName).1

/-- `CleanupChain`: best-effort FORWARD-jump removal, then flush-and-delete
in both families with every error ignored; always reports success (`nil`). -/
def CleanupChain (chainName containerIP : String) (fw : Firewall) :
    Firewall × Option String :=
  let fw2 := removeForwardStage chainName containerIP fw
  ({ fw2 with chains4 := cleanupStage chainName fw2.chains4 fw2.forward4,
              chains6 := cleanupStage chainName fw2.chains6 fw2.forward6 }, none)

end Iptables

namespace BastionService

/-! Model of the Bastion `SetupChain` RPC handler (`Server.SetupChain`).
The kernel-level outcome of the three `iptables` invocations inside
`iptables.SetupChain` is environmental; it is supplied as an oracle, and
the handler model also reports the commands it would have run. -/

open Iptables

/-- One invoked `iptables`/`ip6tables` command of the chain-install path. -/
inductive Cmd
  | newChain (v6 : Bool) (name : String)
  | delChain (v6 : Bool) (name : String)
  | insertForward (v6 : Bool) (src : List Nat) (jump : String)
  deriving Repr, DecidableEq

/-- Which of the three steps of `iptables.SetupChain` the kernel fails. -/
inductive SetupOutcome
  | ok
  | failCreate4
  | failCreate6
  | failForward
  deriving Repr, DecidableEq

/-- `iptables.SetupChain`: create the chain in both families, insert the
FORWARD jump in the container's family, rolling back on failure. -/
def iptablesSetupChain (outcome : SetupOutcome) (chainName : String) (ip : List Nat) :
    List Cmd × Option String :=
  let v6 := (GoNet.to4 ip).isNone
  match outcome with
  | .failCreate4 => ([.newChain false chainName], some "chain create failed")
  | .failCreate6 =>
    ([.newChain false chainName, .newChain true chainName, .delChain false chainName],
     some "chain create failed")
  | .failForward =>
    ([.newChain false chainName, .newChain true chainName,
      .insertForward v6 ip chainName, .delChain v6 chainName,
      .delChain false chainName, .delChain true chainName],
     some "forward insert failed")
  | .ok =>
    ([.newChain false chainName, .newChain true chainName,
      .insertForward v6 ip chainName], none)

structure SetupChainRequest where
  chainName : String
  containerIp : String
  containerId : String := ""
  deriving Repr, DecidableEq

structure SetupChainResponse where
  success : Bool
  error : Option String := none
  deriving Repr, DecidableEq

/-- `Server.SetupChain`: chain-name validation, container-IP validation,
chain install, and the `chainIPs` map update; validation failures return a
`success=false` response without touching the firewall or the map. -/
def SetupChain (outcome : SetupOutcome) (chainIPs : List (String × String))
    (req : SetupChainRequest) :
    SetupChainResponse × List (String × String) × List Cmd :=
  match Validation.ValidateChainName req.chainName with
  | .error e => ({ success := false, error := some e }, chainIPs, [])
  | .ok _ =>
    match Validation.ValidateContainerIP req.containerIp with
    | .error e => ({ success := false, error := some e }, chainIPs, [])
    | .ok ip =>
      match iptablesSetupChain outcome req.chainName ip with
      | (cmds, some e) => ({ success := false, error := some e }, chainIPs, cmds)
      | (cmds, none) =>
        ({ success := true }, assocInsert req.chainName req.containerIp chainIPs, cmds)

end BastionService

namespace Lifecycle

/-! Model of `GenerateChainName` from the isolation runner's lifecycle
package: the workload ID's hex characters (either case), truncated to 16,
behind the `ISO-` prefix.  The Go function is total — it returns a (then
invalid) short name rather than an error when fewer than 16 hex characters
exist. -/

def isHexChar (c : Char) : Bool :=
  (decide ('0' ≤ c) && decide (c ≤ '9')) ||
  (decide ('a' ≤ c) && decide (c ≤ 'f')) ||
  (decide ('A' ≤ c) && decide (c ≤ 'F'))

/-- The hex-character accumulation loop (`len(hexPart) == 16` break). -/
def hexPart16 : List Char → Nat → List Char
  | [], _ => []
  | c :: rest, have2 =>
    if isHexChar c then
      if have2 + 1 = 16 then [c]
      else c :: hexPart16 rest (have2 + 1)
    else hexPart16 rest have2

def GenerateChainName (containerID : String) : String :=
  "ISO-" ++ String.mk (hexPart16 containerID.toList 0)

/-- All hex characters of an ID, in order (no truncation) — used to state
what the loop produces. -/
def hexChars (containerID : String) : List Char :=
  containerID.toList.filter isHexChar

end Lifecycle

namespace Manager

/-! Model of the container-manager heartbeat monitor and of the `Run`
stream's main loop (`services/container-manager/pkg/service/service.go`).

The monitor goroutine reacts to a time-ordered event trace: ticker ticks
(every 5 s) and heartbeat receipts.  Time is in whole seconds on a
monotone clock starting when the monitor starts.  The monitor fires — and
pushes a deadline-exceeded error at the stream loop — at the first tick
with `now - lastHeartbeat > 30`. -/

inductive HbEvent
  | tick
  | heartbeat
  deriving Repr, DecidableEq

/-- The monitor loop: `last` is the recorded last-heartbeat time; a tick
fires when more than 30 seconds have passed; a heartbeat resets `last`.
Returns the firing time, if the monitor ever fires. -/
def runMonitor : Nat → List (Nat × HbEvent) → Option Nat
  | _, [] => none
  | last, (t, .tick) :: rest => if t - last > 30 then some t else runMonitor last rest
  | _, (t, .heartbeat) :: rest => runMonitor t rest

/-- Trace of a client that heartbeats every 15 seconds, merged with the
5-second ticker, with the worst-case ordering at shared instants (the tick
processed before the simultaneous heartbeat): tick index `i` onward,
`n` ticks in total. -/
def clientTrace15 : Nat → Nat → List (Nat × HbEvent)
  | _, 0 => []
  | i, n + 1 =>
    (5 * i, HbEvent.tick) ::
      (if 5 * i % 15 = 0 then [(5 * i, HbEvent.heartbeat)] else []) ++
        clientTrace15 (i + 1) n

/-- Trace of a client that sends nothing: ticks only. -/
def silentTrace : Nat → Nat → List (Nat × HbEvent)
  | _, 0 => []
  | i, n + 1 => (5 * i, HbEvent.tick) :: silentTrace (i + 1) n

/-- A server-to-client message of the `Run` stream. -/
inductive ServerMsg
  | stdoutM (d : String)
  | stderrM (d : String)
  | messageM (s : String)
  | exitM (code : Int)
  deriving Repr, DecidableEq

/-- One delivery to the main select loop. -/
inductive LoopEvent
  | stdout (d : String)
  | stderr (d : String)
  | message (s : String)
  | errFromCh (e : Option String)
  | ctxDone
  deriving Repr, DecidableEq

structure RunResult where
  sent : List ServerMsg
  returnedErr : Option String
  terminated : Bool
  deriving Repr, DecidableEq

/-- The `done:` tail of `Run`: wait for the container exit (result supplied
as `waitExit`, `none` when `WaitContainer` errors), send `Exit` on success,
mark cleanup done (so the deferred force-terminate does not run). -/
def donePath (waitExit : Option Int) : RunResult :=
  { sent := (waitExit.map (fun c => [ServerMsg.exitM c])).getD []
    returnedErr := none
    terminated := false }

/-- The main select loop of `Run`: output events are forwarded; a non-nil
error from `errCh` (heartbeat timeout, receive error, terminate failure)
makes the handler return that error, leaving `cleanupDone` false so the
deferred `TerminateContainer(force, 5)` runs; a nil error (client EOF) or
context cancellation goes to the `done:` path. -/
def mainLoop (waitExit : Option Int) : List LoopEvent → RunResult
  | [] => { sent := [], returnedErr := none, terminated := false }
  | e :: rest =>
    match e with
    | .stdout d =>
      let r := mainLoop waitExit rest
      { r with sent := ServerMsg.stdoutM d :: r.sent }
    | .stderr d =>
      let r := mainLoop waitExit rest
      { r with sent := ServerMsg.stderrM d :: r.sent }
    | .message s =>
      let r := mainLoop waitExit rest
      { r with sent := ServerMsg.messageM s :: r.sent }
    | .errFromCh (some msg) => { sent := [], returnedErr := some msg, terminated := true }
    | .errFromCh none => donePath waitExit
    | .ctxDone => donePath waitExit

end Manager

namespace NetworkPool

/-! Model of `internal/bastion/pkg/networkpool`.  Go maps are modelled as
association lists with unique keys (`assocInsert` replaces in place, as a
Go map assignment does); times are Unix seconds as `Nat`.  The engine
(Docker) calls are environmental: network creation is supplied as an
oracle `create` (the generated `iso-net-<uuid>` name, the engine network
ID and the chosen subnet), and the cleanup loop takes a per-network
success oracle. -/

open Iptables (assocLookup assocInsert assocErase)

/-- `defaultTTL` (1 hour), in seconds. -/
def defaultTTL : Nat := 3600

structure NetworkEntry where
  networkName : String
  networkID : String
  subnet : String
  configHash : String
  driver : String
  currentContainer : Option String
  createdAt : Nat
  lastReleasedAt : Option Nat
  cleanupAt : Option Nat
  reuseCount : Nat
  deriving Repr, DecidableEq

structure PoolState where
  networks : List (String × NetworkEntry) := []
  configIndex : List (String × List String) := []
  lastCleanup : Nat := 0
  deriving Repr, DecidableEq

structure AcquireResult where
  networkName : String
  networkID : String
  subnet : String
  reused : Bool
  deriving Repr, DecidableEq

/-- `findAvailableNetwork`: the first name under `configIndex[configHash]`
whose entry exists and has no current holder. -/
def findAvailableNetwork (st : PoolState) (configHash : String) : Option String :=
  match assocLookup configHash st.configIndex with
  | some networks =>
    networks.find? (fun name =>
      match assocLookup name st.networks with
      | some entry => entry.currentContainer.isNone
      | none => false)
  | none => none

/-- `removeString`: remove every occurrence. -/
def removeString (slice : List String) (s : String) : List String :=
  slice.filter (fun item => item ≠ s)

/-- `createNetwork` with the engine call abstracted to an oracle: `none`
models creation failing after all retries; `some (name, id, subnet)` a
successful engine `NetworkCreate`. -/
def createNetwork (now : Nat) (containerID configHash : String)
    (create : Option (String × String × String)) (st : PoolState) :
    Except String (PoolState × AcquireResult) :=
  match create with
  | none => .error "failed to create network"
  | some (networkName, networkID, subnet) =>
    let entry : NetworkEntry :=
      { networkName := networkName, networkID := networkID, subnet := subnet,
        configHash := configHash, driver := "bridge",
        currentContainer := some containerID, createdAt := now,
        lastReleasedAt := none, cleanupAt := none, reuseCount := 0 }
    .ok ({ st with networks := assocInsert networkName entry st.networks },
         { networkName := networkName, networkID := networkID, subnet := subnet,
           reused := false })

/-- `Pool.Acquire`: reuse a pooled lease with the same config hash if one
exists (reassign, clear `cleanupAt`, bump `reuseCount`, drop from
`configIndex`), otherwise create a new network. -/
def Acquire (now : Nat) (containerID configHash : String)
    (create : Option (String × String × String)) (st : PoolState) :
    Except String (PoolState × AcquireResult) :=
  match findAvailableNetwork st configHash with
  | some networkName =>
    match assocLookup networkName st.networks with
    | none => .error "unreachable: index entry without a lease"
    | some entry =>
      let entry2 := { entry with currentContainer := some containerID,
                                 cleanupAt := none,
                                 reuseCount := entry.reuseCount + 1 }
      let networks := assocInsert networkName entry2 st.networks
      let configIndex :=
        match assocLookup configHash st.configIndex with
        | some ns => assocInsert configHash (removeString ns networkName) st.configIndex
        | none => st.configIndex
      .ok ({ st with networks := networks, configIndex := configIndex },
           { networkName := entry.networkName, networkID := entry.networkID,
             subnet := entry.subnet, reused := true })
  | none => createNetwork now containerID configHash create st

/-- `Pool.Release`: ownership checks, then either force-remove the network
and its lease, or pool the lease with `cleanupAt = now + defaultTTL` and
push it onto `configIndex[configHash]`. -/
def Release (now : Nat) (containerID networkName : String) (forceCleanup : Bool)
    (st : PoolState) : Except String (PoolState × Bool) :=
  match assocLookup networkName st.networks with
  | none => .error "network not found in pool"
  | some entry =>
    if entry.currentContainer ≠ some containerID then
      .error "container does not own network"
    else
      let entry2 := { entry with currentContainer := none, lastReleasedAt := some now }
      if forceCleanup then
        let networks := assocErase networkName st.networks
        let configIndex :=
          match assocLookup entry2.configHash st.configIndex with
          | some ns =>
            let ns2 := removeString ns networkName
            if ns2 = [] then assocErase entry2.configHash st.configIndex
            else assocInsert entry2.configHash ns2 st.configIndex
          | none => st.configIndex
        .ok ({ st with networks := networks, configIndex := configIndex }, true)
      else
        let entry3 := { entry2 with cleanupAt := some (now + defaultTTL) }
        let networks := assocInsert networkName entry3 st.networks
        let cur := (assocLookup entry3.configHash st.configIndex).getD []
        let configIndex := assocInsert entry3.configHash (cur ++ [networkName]) st.configIndex
        .ok ({ st with networks := networks, configIndex := configIndex }, false)

/-- One pass of `runCleanup`: expired holderless leases whose engine
network removal succeeds (`engineOk`) are deleted from the state and the
index; `last_cleanup` advances. -/
def runCleanup (now : Nat) (engineOk : String → Bool) (st : PoolState) : PoolState :=
  let toCleanup := st.networks.filter (fun p =>
    (match p.2.cleanupAt with | some t => decide (t < now) | none => false) &&
      p.2.currentContainer.isNone)
  let st := toCleanup.foldl (fun st p =>
    if engineOk p.2.networkID then
      let networks := assocErase p.1 st.networks
      let configIndex :=
        match assocLookup p.2.configHash st.configIndex with
        | some ns =>
          let ns2 := removeString ns p.1
          if ns2 = [] then assocErase p.2.configHash st.configIndex
          else assocInsert p.2.configHash ns2 st.configIndex
        | none => st.configIndex
      { st with networks := networks, configIndex := configIndex }
    else st) st
  { st with lastCleanup := now }

/-- `validateNetworks` (reconciliation on load): drop leases whose engine
network no longer exists, then rebuild `configIndex` from scratch from the
surviving holderless leases. -/
def rebuildIndex (networks : List (String × NetworkEntry)) : List (String × List String) :=
  networks.foldl (fun idx p =>
    if p.2.currentContainer.isNone then
      assocInsert p.2.configHash ((assocLookup p.2.configHash idx).getD [] ++ [p.1]) idx
    else idx) []

def validateNetworks (dockerNetworkIDs : List String) (st : PoolState) : PoolState :=
  let networks := st.networks.filter (fun p => dockerNetworkIDs.contains p.2.networkID)
  { st with networks := networks, configIndex := rebuildIndex networks }

/-! Persistence: `persist` marshals the state as a single JSON document
(modelled at the JSON-value level; the byte layer of `json.MarshalIndent`
is an injective rendering of this value) and `loadState` unmarshals it.
Go serialises map keys in sorted order — a serialisation detail that does
not change the document's content — while the model keeps entry order. -/

inductive Json
  | null
  | nat (n : Nat)
  | str (s : String)
  | arr (l : List Json)
  | obj (l : List (String × Json))

def encodeOptNat : Option Nat → Json
  | none => .null
  | some n => .nat n

def encodeOptStr : Option String → Json
  | none => .null
  | some s => .str s

def encodeEntry (e : NetworkEntry) : Json :=
  .obj [("network_name", .str e.networkName),
        ("network_id", .str e.networkID),
        ("subnet", .str e.subnet),
        ("config_hash", .str e.configHash),
        ("driver", .str e.driver),
        ("current_container", encodeOptStr e.currentContainer),
        ("created_at", .nat e.createdAt),
        ("last_released_at", encodeOptNat e.lastReleasedAt),
        ("cleanup_at", encodeOptNat e.cleanupAt),
        ("reuse_count", .nat e.reuseCount)]

/-- `persist`: the marshalled document `{networks, config_index,
last_cleanup}`. -/
def encodeState (st : PoolState) : Json :=
  .obj [("networks", .obj (st.networks.map (fun p => (p.1, encodeEntry p.2)))),
        ("config_index", .obj (st.configIndex.map (fun p =>
          (p.1, Json.arr (p.2.map Json.str))))),
        ("last_cleanup", .nat st.lastCleanup)]

def jlookup (k : String) : List (String × Json) → Option Json
  | [] => none
  | (k2, v) :: rest => if k2 = k then some v else jlookup k rest

def decodeStr : Option Json → Option String
  | some (.str s) => some s
  | _ => none

def decodeNat : Option Json → Option Nat
  | some (.nat n) => some n
  | _ => none

def decodeOptStr : Option Json → Option (Option String)
  | some (.str s) => some (some s)
  | some .null => some none
  | none => some none
  | _ => none

def decodeOptNat : Option Json → Option (Option Nat)
  | some (.nat n) => some (some n)
  | some .null => some none
  | none => some none
  | _ => none

def decodeEntry : Json → Option NetworkEntry
  | .obj fields => do
    let networkName ← decodeStr (jlookup "network_name" fields)
    let networkID ← decodeStr (jlookup "network_id" fields)
    let subnet ← decodeStr (jlookup "subnet" fields)
    let configHash ← decodeStr (jlookup "config_hash" fields)
    let driver ← decodeStr (jlookup "driver" fields)
    let currentContainer ← decodeOptStr (jlookup "current_container" fields)
    let createdAt ← decodeNat (jlookup "created_at" fields)
    let lastReleasedAt ← decodeOptNat (jlookup "last_released_at" fields)
    let cleanupAt ← decodeOptNat (jlookup "cleanup_at" fields)
    let reuseCount ← decodeNat (jlookup "reuse_count" fields)
    some { networkName := networkName, networkID := networkID, subnet := subnet,
           configHash := configHash, driver := driver,
           currentContainer := currentContainer, createdAt := createdAt,
           lastReleasedAt := lastReleasedAt, cleanupAt := cleanupAt,
           reuseCount := reuseCount }
  | _ => none

def decodeNames : Json → Option (List String)
  | .arr l => l.mapM (fun j => match j with | .str s => some s | _ => none)
  | _ => none

/-- `loadState` on a present file: unmarshal `networks`, `config_index`
and `last_cleanup` (absent maps default to empty, as in the Go code). -/
def decodeState : Json → Option PoolState
  | .obj fields => do
    let networks ←
      match jlookup "networks" fields with
      | some (.obj nets) => nets.mapM (fun p => (decodeEntry p.2).map (fun e => (p.1, e)))
      | some .null => some []
      | none => some []
      | _ => none
    let configIndex ←
      match jlookup "config_index" fields with
      | some (.obj idx) => idx.mapM (fun p => (decodeNames p.2).map (fun ns => (p.1, ns)))
      | some .null => some []
      | none => some []
      | _ => none
    let lastCleanup ← decodeNat (jlookup "last_cleanup" fields)
    some { networks := networks, configIndex := configIndex, lastCleanup := lastCleanup }
  | _ => none

/-- Reachable pool states: the empty state of a fresh state file, closed
under successful `Acquire` (with a fresh engine network name when one is
created — `iso-net-<uuid>` collisions are assumed impossible, as the code
does), successful `Release`, cleanup passes, and reload reconciliation. -/
inductive Reachable : PoolState → Prop
  | init (t : Nat) : Reachable { networks := [], configIndex := [], lastCleanup := t }
  | acquire {st st2 r now cid hash create}
      (h : Reachable st)
      (hfresh : ∀ name id subnet, create = some (name, id, subnet) →
        assocLookup name st.networks = none)
      (hop : Acquire now cid hash create st = .ok (st2, r)) : Reachable st2
  | release {st st2 b now cid name force}
      (h : Reachable st)
      (hop : Release now cid name force st = .ok (st2, b)) : Reachable st2
  | cleanup {st now engineOk} (h : Reachable st) : Reachable (runCleanup now engineOk st)
  | reload {st dockerIDs} (h : Reachable st) : Reachable (validateNetworks dockerIDs st)

end NetworkPool

/-! ## Helper lemmas -/

namespace Manager

/-- The deadline-exceeded status the heartbeat monitor pushes at the
stream loop (`status.Errorf(codes.DeadlineExceeded, ...)`). -/
def heartbeatTimeoutError : String :=
  "DeadlineExceeded: heartbeat timeout: no heartbeat received for 30 seconds"

/-- Invariant of the 15-second-heartbeat trace: entering tick index `i`,
the recorded heartbeat time is the largest multiple of 15 processed so
far, and the monitor never fires. -/
lemma runMonitor_clientTrace15 (n : Nat) : ∀ i, 1 ≤ i →
    runMonitor (15 * ((i - 1) / 3)) (clientTrace15 i n) = none := by
  induction n with
  | zero => intro i _; simp [clientTrace15, runMonitor]
  | succ n ih =>
    intro i hi
    have hle : ¬ (5 * i - 15 * ((i - 1) / 3) > 30) := by omega
    by_cases h15 : 5 * i % 15 = 0
    · have h5 : 5 * i = 15 * ((i + 1 - 1) / 3) := by omega
      rw [clientTrace15, if_pos h15]
      show runMonitor _ ((5 * i, HbEvent.tick) :: (5 * i, HbEvent.heartbeat) ::
        clientTrace15 (i + 1) n) = none
      rw [runMonitor, if_neg hle, runMonitor, h5]
      exact ih (i + 1) (by omega)
    · have heq : (i - 1) / 3 = (i + 1 - 1) / 3 := by omega
      rw [clientTrace15, if_neg h15]
      show runMonitor _ ((5 * i, HbEvent.tick) :: clientTrace15 (i + 1) n) = none
      rw [runMonitor, if_neg hle, heq]
      exact ih (i + 1) (by omega)

end Manager

namespace Lifecycle

/-- The accumulation loop keeps the first `16 - k` hex characters. -/
lemma hexPart16_eq (l : List Char) : ∀ k, k < 16 →
    hexPart16 l k = (l.filter isHexChar).take (16 - k) := by
  induction l with
  | nil => intro k _; simp [hexPart16]
  | cons c rest ih =>
    intro k hk
    cases hval : isHexChar c with
    | false =>
      simp only [hexPart16, hval, List.filter_cons, Bool.false_eq_true, if_false]
      exact ih k hk
    | true =>
      simp only [hexPart16, List.filter_cons, hval, eq_self_iff_true, if_true]
      by_cases h16 : k + 1 = 16
      · have h1 : 16 - k = 1 := by omega
        rw [if_pos h16, h1]
        simp [List.take_succ_cons]
      · have h1 : 16 - k = (16 - (k + 1)) + 1 := by omega
        rw [if_neg h16, ih (k + 1) (by omega), h1, List.take_succ_cons]

lemma generateChainName_eq (id : String) :
    GenerateChainName id = "ISO-" ++ String.mk ((hexChars id).take 16) := by
  unfold GenerateChainName hexChars
  rw [hexPart16_eq _ 0 (by omega)]

lemma toList_iso_mk (l : List Char) :
    ("ISO-" ++ String.mk l).toList = 'I' :: 'S' :: 'O' :: '-' :: l := rfl

lemma length_iso_mk (l : List Char) :
    ("ISO-" ++ String.mk l).length = 4 + l.length := by
  show ('I' :: 'S' :: 'O' :: '-' :: l).length = 4 + l.length
  simp only [List.length_cons]
  omega

end Lifecycle

namespace Validation

/-- `chainNameMatches` on the `ISO-` concatenation, reduced. -/
lemma chainNameMatches_iso (l : List Char) :
    chainNameMatches ("ISO-" ++ String.mk l) =
      (decide (l.length = 16) && l.all (fun c =>
        (decide ('a' ≤ c) && decide (c ≤ 'f')) ||
        (decide ('0' ≤ c) && decide (c ≤ '9')))) := rfl

lemma validateChainName_iso_ok (l : List Char) (h16 : l.length = 16)
    (hall : l.all (fun c =>
      (decide ('a' ≤ c) && decide (c ≤ 'f')) ||
      (decide ('0' ≤ c) && decide (c ≤ '9'))) = true) :
    ValidateChainName ("ISO-" ++ String.mk l) = .ok () := by
  have hm : chainNameMatches ("ISO-" ++ String.mk l) = true := by
    rw [chainNameMatches_iso, hall, h16]
    simp
  unfold ValidateChainName
  rw [Lifecycle.length_iso_mk, if_neg (by omega), if_pos hm]

lemma validateChainName_iso_short (l : List Char) (hlt : l.length < 16) :
    ValidateChainName ("ISO-" ++ String.mk l) =
      .error "chain name must match pattern ISO-16hex" := by
  have hm : chainNameMatches ("ISO-" ++ String.mk l) = false := by
    rw [chainNameMatches_iso]
    have : decide (l.length = 16) = false := by
      simp only [decide_eq_false_iff_not]
      omega
    rw [this, Bool.false_and]
  unfold ValidateChainName
  rw [Lifecycle.length_iso_mk, if_neg (by omega)]
  rw [hm]
  simp

end Validation

/-! ## Claim C9 -/

/-- C9 counterexample: `GenerateChainName` never returns an error.  On the
workload ID `"workload"` (which has only the two hex characters `a`, `d`)
it returns the string `"ISO-ad"` — a chain name, not an error — which the
Bastion's `ValidateChainName` then rejects.  This refutes the claim that
the derivation returns an error when the ID holds fewer than 16 hex
characters. -/
theorem c9_claim_counterexample :
    Lifecycle.GenerateChainName "workload" = "ISO-ad" ∧
    Validation.ValidateChainName "ISO-ad" =
      .error "chain name must match pattern ISO-16hex" := by
  constructor
  · rfl
  · rfl

/-- C9 (amended): chain-name derivation is total: for every workload ID it
returns `ISO-` followed by the ID's hex characters truncated to 16.  When
the ID has at least 16 hex characters the name has length 20 (within the
28-character limit) and — when those characters are lowercase — passes
`ValidateChainName`; when it has fewer, the (shorter) name is returned
without an error and is rejected by `ValidateChainName`. -/
theorem c9_chain_name_derivation :
    (∀ id, Lifecycle.GenerateChainName id =
        "ISO-" ++ String.mk ((Lifecycle.hexChars id).take 16)) ∧
    (∀ id, 16 ≤ (Lifecycle.hexChars id).length →
      (Lifecycle.GenerateChainName id).length = 20 ∧
      (((Lifecycle.hexChars id).take 16).all (fun c =>
          (decide ('a' ≤ c) && decide (c ≤ 'f')) ||
          (decide ('0' ≤ c) && decide (c ≤ '9'))) = true →
        Validation.ValidateChainName (Lifecycle.GenerateChainName id) = .ok ())) ∧
    (∀ id, (Lifecycle.hexChars id).length < 16 →
      Validation.ValidateChainName (Lifecycle.GenerateChainName id) =
        .error "chain name must match pattern ISO-16hex") := by
  refine ⟨Lifecycle.generateChainName_eq, ?_, ?_⟩
  · intro id h
    have hlen : ((Lifecycle.hexChars id).take 16).length = 16 := by
      rw [List.length_take]
      omega
    constructor
    · rw [Lifecycle.generateChainName_eq, Lifecycle.length_iso_mk, hlen]
    · intro hall
      rw [Lifecycle.generateChainName_eq]
      exact Validation.validateChainName_iso_ok _ hlen hall
  · intro id h
    have hlen : ((Lifecycle.hexChars id).take 16).length < 16 := by
      rw [List.length_take]
      omega
    rw [Lifecycle.generateChainName_eq]
    exact Validation.validateChainName_iso_short _ hlen

/-- Witness for C9's amended theorem at concrete IDs. -/
theorem c9_witness :
    Validation.ValidateChainName
      (Lifecycle.GenerateChainName "0123456789abcdefzz") = .ok () ∧
    Validation.ValidateChainName (Lifecycle.GenerateChainName "zk-9") =
      .error "chain name must match pattern ISO-16hex" :=
  ⟨(c9_chain_name_derivation.2.1 "0123456789abcdefzz" (by decide)).2 (by decide),
   c9_chain_name_derivation.2.2 "zk-9" (by decide)⟩

/-! ## Claim C5 -/

/-- C5 counterexample: after 35 seconds without a heartbeat the monitor
fires, and the `Run` loop's reaction to the monitor's deadline-exceeded
error is to return the error with `cleanupDone` unset — the deferred
force-terminate runs, but **no** `Exit` message is sent on this path
(`sent = []`), refuting the claim that `Exit` is emitted as the last
server message on heartbeat loss. -/
theorem c5_claim_counterexample :
    Manager.runMonitor 0 (Manager.silentTrace 1 7) = some 35 ∧
    Manager.mainLoop (some 0)
        [Manager.LoopEvent.errFromCh (some Manager.heartbeatTimeoutError)] =
      { sent := [], returnedErr := some Manager.heartbeatTimeoutError,
        terminated := true } := by
  exact ⟨by decide, rfl⟩

/-- C5 (amended): a client heartbeating every 15 seconds never trips the
monitor, so the workload is never terminated for liveness; once more than
30 seconds pass silently the 5-second-tick monitor fires (at 35 s for a
silent client), and the `Run` handler closes the stream with the monitor's
deadline-exceeded status and leaves the deferred force-termination to run —
but it sends no `Exit` message on that path. -/
theorem c5_heartbeat_liveness_and_timeout :
    (∀ n, Manager.runMonitor 0 (Manager.clientTrace15 1 n) = none) ∧
    (∀ n, 7 ≤ n → Manager.runMonitor 0 (Manager.silentTrace 1 n) = some 35) ∧
    (∀ waitExit rest,
      Manager.mainLoop waitExit
          (Manager.LoopEvent.errFromCh (some Manager.heartbeatTimeoutError) :: rest) =
        { sent := [], returnedErr := some Manager.heartbeatTimeoutError,
          terminated := true }) := by
  refine ⟨?_, ?_, ?_⟩
  · intro n
    have h := Manager.runMonitor_clientTrace15 n 1 (by omega)
    simpa using h
  · intro n hn
    obtain ⟨m, rfl⟩ : ∃ m, n = 7 + m := ⟨n - 7, by omega⟩
    rw [show 7 + m = (6 + m) + 1 from by omega, Manager.silentTrace,
      Manager.runMonitor, if_neg (by omega)]
    rw [show 6 + m = (5 + m) + 1 from by omega, Manager.silentTrace,
      Manager.runMonitor, if_neg (by omega)]
    rw [show 5 + m = (4 + m) + 1 from by omega, Manager.silentTrace,
      Manager.runMonitor, if_neg (by omega)]
    rw [show 4 + m = (3 + m) + 1 from by omega, Manager.silentTrace,
      Manager.runMonitor, if_neg (by omega)]
    rw [show 3 + m = (2 + m) + 1 from by omega, Manager.silentTrace,
      Manager.runMonitor, if_neg (by omega)]
    rw [show 2 + m = (1 + m) + 1 from by omega, Manager.silentTrace,
      Manager.runMonitor, if_neg (by omega)]
    rw [show 1 + m = m + 1 from by omega, Manager.silentTrace,
      Manager.runMonitor, if_pos (by omega)]
  · intro waitExit rest
    rfl

/-- Witness for C5's amended theorem at concrete inputs. -/
theorem c5_witness :
    Manager.runMonitor 0 (Manager.clientTrace15 1 20) = none ∧
    Manager.runMonitor 0 (Manager.silentTrace 1 9) = some 35 ∧
    Manager.mainLoop (some 0)
        [Manager.LoopEvent.errFromCh (some Manager.heartbeatTimeoutError),
         Manager.LoopEvent.ctxDone] =
      { sent := [], returnedErr := some Manager.heartbeatTimeoutError,
        terminated := true } :=
  ⟨c5_heartbeat_liveness_and_timeout.1 20,
   c5_heartbeat_liveness_and_timeout.2.1 9 (by omega),
   c5_heartbeat_liveness_and_timeout.2.2 (some 0) [Manager.LoopEvent.ctxDone]⟩

/-! ## Claim C10 -/

/-- C10: every `SetupChain` request whose `container_ip` does not parse as
an RFC1918 IPv4 address (in particular, every IPv6 address) is answered
with `success=false` and a validation error, with no `iptables`/`ip6tables`
command invoked and the `chainIPs` map unchanged. -/
theorem c10_setupchain_rejects_invalid_ip :
    ∀ (outcome : BastionService.SetupOutcome) (chainIPs : List (String × String))
      (req : BastionService.SetupChainRequest),
      (¬ ∃ ip ip4, GoNet.parseIPStr req.containerIp = some ip ∧
          GoNet.to4 ip = some ip4 ∧ Validation.isPrivateIP ip4 = true) →
      (BastionService.SetupChain outcome chainIPs req).1.success = false ∧
      ((BastionService.SetupChain outcome chainIPs req).1.error.isSome = true ∧
       (BastionService.SetupChain outcome chainIPs req).2.1 = chainIPs ∧
       (BastionService.SetupChain outcome chainIPs req).2.2 = []) := by
  intro outcome chainIPs req hip
  have hvip : ∃ e, Validation.ValidateContainerIP req.containerIp = .error e := by
    cases hp : GoNet.parseIPStr req.containerIp with
    | none =>
      refine ⟨"invalid IP address", ?_⟩
      simp [Validation.ValidateContainerIP, hp]
    | some ip =>
      cases ht : GoNet.to4 ip with
      | none =>
        refine ⟨"only IPv4 addresses supported", ?_⟩
        simp [Validation.ValidateContainerIP, hp, ht]
      | some ip4 =>
        cases hpriv : Validation.isPrivateIP ip4 with
        | true => exact absurd ⟨ip, ip4, hp, ht, hpriv⟩ hip
        | false =>
          refine ⟨"IP address is not private RFC1918", ?_⟩
          simp [Validation.ValidateContainerIP, hp, ht, hpriv]
  obtain ⟨e, he⟩ := hvip
  unfold BastionService.SetupChain
  cases hcn : Validation.ValidateChainName req.chainName with
  | error e2 => exact ⟨rfl, rfl, rfl, rfl⟩
  | ok u => rw [he]; exact ⟨rfl, rfl, rfl, rfl⟩

/-- Witness for C10 at a concrete IPv6 request. -/
theorem c10_witness :
    (BastionService.SetupChain .ok [("ISO-aaaaaaaaaaaaaaaa", "10.0.0.9")]
        { chainName := "ISO-0123456789abcdef", containerIp := "::1",
          containerId := "w1" }).1.success = false ∧
    (BastionService.SetupChain .ok [("ISO-aaaaaaaaaaaaaaaa", "10.0.0.9")]
        { chainName := "ISO-0123456789abcdef", containerIp := "::1",
          containerId := "w1" }).2.2 = [] := by
  have hnot : ¬ ∃ ip ip4, GoNet.parseIPStr "::1" = some ip ∧
      GoNet.to4 ip = some ip4 ∧ Validation.isPrivateIP ip4 = true := by
    rintro ⟨ip, ip4, hp, ht, -⟩
    rw [show GoNet.parseIPStr "::1" =
        some [0, 0, 0, 0, 0, 0, 0, 0, 0, 0, 0, 0, 0, 0, 0, 1] from by decide] at hp
    cases Option.some.inj hp
    rw [show GoNet.to4 [0, 0, 0, 0, 0, 0, 0, 0, 0, 0, 0, 0, 0, 0, 0, 1] = none
      from by decide] at ht
    exact Option.noConfusion ht
  exact ⟨(c10_setupchain_rejects_invalid_ip .ok _ _ hnot).1,
         (c10_setupchain_rejects_invalid_ip .ok _ _ hnot).2.2.2⟩

namespace Iptables

lemma assocLookup_insert {α : Type} (k : String) (v : α) (l : List (String × α)) :
    assocLookup k (assocInsert k v l) = some v := by
  induction l with
  | nil => simp [assocInsert, assocLookup]
  | cons p rest ih =>
    by_cases hk : p.1 = k
    · simp [assocInsert, hk, assocLookup]
    · simp [assocInsert, hk, assocLookup, ih]

lemma assocInsert_self {α : Type} {k : String} {v : α} {l : List (String × α)}
    (h : assocLookup k l = some v) : assocInsert k v l = l := by
  induction l with
  | nil => simp [assocLookup] at h
  | cons p rest ih =>
    by_cases hk : p.1 = k
    · simp only [assocLookup, hk, if_true, eq_self_iff_true, Option.some.injEq] at h
      cases p
      simp_all [assocInsert]
    · simp only [assocLookup, hk, if_false] at h
      simp [assocInsert, hk, ih h]

lemma assocLookup_erase {α : Type} (k : String) (l : List (String × α)) :
    assocLookup k (assocErase k l) = none := by
  induction l with
  | nil => simp [assocErase, assocLookup]
  | cons p rest ih =>
    by_cases hk : p.1 = k
    · simpa [assocErase, hk] using ih
    · simpa [assocErase, assocLookup, hk] using ih

lemma removeFirstForward_not_mem {e : ForwardEntry} {l : List ForwardEntry}
    (h : e ∉ l) : removeFirstForward e l = (l, false) := by
  induction l with
  | nil => rfl
  | cons f rest ih =>
    have hne : ¬ f = e := fun hfe => h (hfe ▸ List.mem_cons_self f rest)
    have hrest : e ∉ rest := fun hm => h (List.mem_cons_of_mem f hm)
    simp [removeFirstForward, hne, ih hrest]

lemma removeFirstForward_count_le_one {e : ForwardEntry} {l : List ForwardEntry}
    (h : l.count e ≤ 1) : e ∉ (removeFirstForward e l).1 := by
  induction l with
  | nil => simp [removeFirstForward]
  | cons f rest ih =>
    by_cases hfe : f = e
    · subst hfe
      have : rest.count f = 0 := by
        have := List.count_cons_self f rest
        omega
      simp [removeFirstForward, List.count_eq_zero.mp this]
    · have hef : (f == e) = false := by
        simp only [beq_eq_false_iff_ne, ne_eq]
        exact hfe
      have hc : rest.count e ≤ 1 := by
        rw [List.count_cons, hef] at h
        simpa using h
      simp [removeFirstForward, hfe]
      exact ⟨fun hef => hfe hef.symm, ih hc⟩

/-- The flush-then-delete pair of `CleanupChain` is idempotent for a fixed
FORWARD table. -/
lemma flushDelete_idem (chains : List (String × List Rule))
    (forward : List ForwardEntry) (name : String) :
    (deleteChain (flushChain
        (deleteChain (flushChain chains name).1 forward name).1 name).1
      forward name).1 =
    (deleteChain (flushChain chains name).1 forward name).1 := by
  cases hl : assocLookup name chains with
  | none =>
    have hf : flushChain chains name = (chains, false) := by
      simp [flushChain, hl]
    have hd : deleteChain chains forward name = (chains, false) := by
      simp [deleteChain, hl]
    rw [hf, hd, hf, hd]
  | some rules =>
    have hf : (flushChain chains name).1 = assocInsert name [] chains := by
      simp [flushChain, hl]
    have hl2 : assocLookup name (assocInsert name [] chains) = some [] :=
      assocLookup_insert name [] chains
    rw [hf]
    by_cases href : forward.any (fun f => f.jump = name)
    · -- still referenced: -X fails both times
      have hd : (deleteChain (assocInsert name [] chains) forward name).1 =
          assocInsert name [] chains := by
        simp [deleteChain, hl2, href]
      rw [hd]
      have hf2 : (flushChain (assocInsert name [] chains) name).1 =
          assocInsert name [] chains := by
        simp [flushChain, hl2, assocInsert_self hl2]
      rw [hf2, hd]
    · -- unreferenced: deleted on the first pass, absent on the second
      have hd : (deleteChain (assocInsert name [] chains) forward name).1 =
          assocErase name (assocInsert name [] chains) := by
        simp [deleteChain, hl2, href]
      rw [hd]
      have hl3 : assocLookup name (assocErase name (assocInsert name [] chains)) =
          none := assocLookup_erase _ _
      have hf3 : (flushChain (assocErase name (assocInsert name [] chains)) name).1 =
          assocErase name (assocInsert name [] chains) := by
        simp [flushChain, hl3]
      rw [hf3]
      simp [deleteChain, hl3]

end Iptables

namespace Iptables

lemma cleanupStage_idem (chainName : String) (chains : List (String × List Rule))
    (forward : List ForwardEntry) :
    cleanupStage chainName (cleanupStage chainName chains forward) forward =
      cleanupStage chainName chains forward :=
  flushDelete_idem chains forward chainName

lemma removeForwardStage_not_mem {chainName containerIP : String} {fw : Firewall}
    (h4 : { src := containerIP, jump := chainName : ForwardEntry } ∉ fw.forward4)
    (h6 : { src := containerIP, jump := chainName : ForwardEntry } ∉ fw.forward6) :
    removeForwardStage chainName containerIP fw = fw := by
  unfold removeForwardStage
  by_cases hip : containerIP = ""
  · simp [hip]
  · rw [if_pos hip]
    cases hv : (match detectIPVersion containerIP with
      | .ok v => v
      | .error _ => Fam.v4) with
    | v4 => simp [removeFirstForward_not_mem h4]
    | v6 => simp [removeFirstForward_not_mem h6]

end Iptables

/-! ## Claim C8 -/

/-- C8: `CleanupChain` composed with itself equals a single `CleanupChain`
(for well-formed FORWARD tables, which hold the per-container jump rule at
most once, as `SetupChain` installs it), and every call reports success
(`nil`) whether or not the chain still exists — per-command flush/delete
errors are ignored. -/
theorem c8_cleanup_idempotent :
    ∀ (chainName containerIP : String) (fw : Iptables.Firewall),
      fw.forward4.count { src := containerIP, jump := chainName } ≤ 1 →
      fw.forward6.count { src := containerIP, jump := chainName } ≤ 1 →
      Iptables.CleanupChain chainName containerIP
          (Iptables.CleanupChain chainName containerIP fw).1 =
        Iptables.CleanupChain chainName containerIP fw ∧
      (Iptables.CleanupChain chainName containerIP fw).2 = none := by
  intro chainName containerIP fw h4 h6
  refine ⟨?_, rfl⟩
  set e : Iptables.ForwardEntry := { src := containerIP, jump := chainName } with he
  -- the state after the first call
  have hfw2 : ∀ fw' : Iptables.Firewall,
      (Iptables.removeForwardStage chainName containerIP fw').forward4 = fw'.forward4 ∨
      (Iptables.removeForwardStage chainName containerIP fw').forward4 =
        (Iptables.removeFirstForward e fw'.forward4).1 := by
    intro fw'
    unfold Iptables.removeForwardStage
    by_cases hip : containerIP = ""
    · simp [hip]
    · rw [if_pos hip]
      cases (match Iptables.detectIPVersion containerIP with
        | .ok v => v
        | .error _ => Iptables.Fam.v4) with
      | v4 => right; rfl
      | v6 => left; rfl
  have hfw6 : ∀ fw' : Iptables.Firewall,
      (Iptables.removeForwardStage chainName containerIP fw').forward6 = fw'.forward6 ∨
      (Iptables.removeForwardStage chainName containerIP fw').forward6 =
        (Iptables.removeFirstForward e fw'.forward6).1 := by
    intro fw'
    unfold Iptables.removeForwardStage
    by_cases hip : containerIP = ""
    · simp [hip]
    · rw [if_pos hip]
      cases (match Iptables.detectIPVersion containerIP with
        | .ok v => v
        | .error _ => Iptables.Fam.v4) with
      | v4 => left; rfl
      | v6 => right; rfl
  -- e occurs at most once after the first removal stage, hence not at all
  -- after a removal, and a second removal is the identity
  set fw2 := Iptables.removeForwardStage chainName containerIP fw with hfw2def
  have hnot4 : e ∉ fw2.forward4 ∨ fw2.forward4.count e ≤ 1 := by
    rcases hfw2 fw with h | h
    · right; rw [hfw2def, h]; exact h4
    · left; rw [hfw2def, h]; exact Iptables.removeFirstForward_count_le_one h4
  have hnot6 : e ∉ fw2.forward6 ∨ fw2.forward6.count e ≤ 1 := by
    rcases hfw6 fw with h | h
    · right; rw [hfw2def, h]; exact h6
    · left; rw [hfw2def, h]; exact Iptables.removeFirstForward_count_le_one h6
  -- the first call's resulting state
  set s1 : Iptables.Firewall :=
    { fw2 with
      chains4 := Iptables.cleanupStage chainName fw2.chains4 fw2.forward4,
      chains6 := Iptables.cleanupStage chainName fw2.chains6 fw2.forward6 } with hs1
  have hcall1 : Iptables.CleanupChain chainName containerIP fw = (s1, none) := rfl
  -- the second removal stage is the identity on s1
  have hs1f4 : s1.forward4 = fw2.forward4 := rfl
  have hs1f6 : s1.forward6 = fw2.forward6 := rfl
  have hrm : Iptables.removeForwardStage chainName containerIP s1 = s1 := by
    by_cases hip : containerIP = ""
    · unfold Iptables.removeForwardStage
      simp [hip]
    · -- under the count hypotheses the removed entry is gone (or the stage
      -- targets the other family); case on the family actually targeted
      have h4' : e ∉ s1.forward4 ∨
          Iptables.removeFirstForward e s1.forward4 = (s1.forward4, false) ∨ True := by
        right; right; trivial
      unfold Iptables.removeForwardStage
      rw [if_pos hip]
      cases hv : (match Iptables.detectIPVersion containerIP with
        | .ok v => v
        | .error _ => Iptables.Fam.v4) with
      | v4 =>
        have : e ∉ s1.forward4 := by
          rw [hs1f4, hfw2def]
          unfold Iptables.removeForwardStage
          rw [if_pos hip, hv]
          exact Iptables.removeFirstForward_count_le_one h4
        rw [Iptables.removeFirstForward_not_mem this]
      | v6 =>
        have : e ∉ s1.forward6 := by
          rw [hs1f6, hfw2def]
          unfold Iptables.removeForwardStage
          rw [if_pos hip, hv]
          exact Iptables.removeFirstForward_count_le_one h6
        rw [Iptables.removeFirstForward_not_mem this]
  -- assemble the second call
  show Iptables.CleanupChain chainName containerIP s1 = (s1, none)
  unfold Iptables.CleanupChain
  rw [hrm]
  have hc4 : Iptables.cleanupStage chainName s1.chains4 s1.forward4 = s1.chains4 := by
    rw [hs1f4]
    exact Iptables.cleanupStage_idem chainName fw2.chains4 fw2.forward4
  have hc6 : Iptables.cleanupStage chainName s1.chains6 s1.forward6 = s1.chains6 := by
    rw [hs1f6]
    exact Iptables.cleanupStage_idem chainName fw2.chains6 fw2.forward6
  show (Iptables.Firewall.mk
      (Iptables.cleanupStage chainName s1.chains4 s1.forward4)
      (Iptables.cleanupStage chainName s1.chains6 s1.forward6)
      s1.forward4 s1.forward6, (none : Option String)) = (s1, none)
  rw [hc4, hc6]

/-- Witness for C8 at a concrete firewall state. -/
theorem c8_witness :
    Iptables.CleanupChain "ISO-0123456789abcdef" "10.0.0.5"
        (Iptables.CleanupChain "ISO-0123456789abcdef" "10.0.0.5"
          { chains4 := [("ISO-0123456789abcdef",
              [{ fam := .v4, chain := "ISO-0123456789abcdef", jump := "DROP" }])],
            chains6 := [("ISO-0123456789abcdef", [])],
            forward4 := [{ src := "10.0.0.5", jump := "ISO-0123456789abcdef" }],
            forward6 := [] }).1 =
      Iptables.CleanupChain "ISO-0123456789abcdef" "10.0.0.5"
        { chains4 := [("ISO-0123456789abcdef",
            [{ fam := .v4, chain := "ISO-0123456789abcdef", jump := "DROP" }])],
          chains6 := [("ISO-0123456789abcdef", [])],
          forward4 := [{ src := "10.0.0.5", jump := "ISO-0123456789abcdef" }],
          forward6 := [] } :=
  (c8_cleanup_idempotent "ISO-0123456789abcdef" "10.0.0.5" _
    (by decide) (by decide)).1

/-! ## Claim C3 -/

/-- C3 counterexample: `ValidateDNSServer` accepts `fe80::1`, which is an
IPv6 link-local address (it lies in `fe80::/10`) — refuting the claim that
link-local addresses of either family are rejected.  The link-local check
in the code runs only in the `To4`-able (IPv4) branch. -/
theorem c3_claim_counterexample :
    Validation.ValidateDNSServer "fe80::1" =
      .ok [254, 128, 0, 0, 0, 0, 0, 0, 0, 0, 0, 0, 0, 0, 0, 1] ∧
    (GoNet.parseCIDRStr "fe80::/10").map (fun n =>
        GoNet.contains n [254, 128, 0, 0, 0, 0, 0, 0, 0, 0, 0, 0, 0, 0, 0, 1]) =
      some true := by
  exact ⟨rfl, by decide⟩

/-- C3 (amended): every string accepted by `ValidateDNSServer` parses as an
IP that is not loopback and — when IPv4 — is neither in 169.254.0.0/16 nor
one of the metadata literals `169.254.169.254`, `168.63.129.16`,
`100.100.100.200`; conversely any unparseable string, any loopback address
and any IPv4 address violating these conditions is rejected.  (IPv6
link-local addresses are *not* rejected: the link-local and metadata
checks apply only to `To4`-able addresses.) -/
theorem c3_dns_validation :
    (∀ s ip, Validation.ValidateDNSServer s = .ok ip →
      GoNet.parseIPStr s = some ip ∧
      GoNet.isLoopback ip = false ∧
      (∀ ip4, GoNet.to4 ip = some ip4 →
        ¬(ip4.head? = some 169 ∧ ip4[1]? = some 254) ∧
        s ≠ "169.254.169.254" ∧ s ≠ "168.63.129.16" ∧ s ≠ "100.100.100.200")) ∧
    (∀ s, GoNet.parseIPStr s = none →
      ∃ e, Validation.ValidateDNSServer s = .error e) ∧
    (∀ s ip, GoNet.parseIPStr s = some ip →
      (GoNet.isLoopback ip = true ∨
        (∃ ip4, GoNet.to4 ip = some ip4 ∧
          ((ip4.head? = some 169 ∧ ip4[1]? = some 254) ∨
           s = "169.254.169.254" ∨ s = "168.63.129.16" ∨ s = "100.100.100.200"))) →
      ∃ e, Validation.ValidateDNSServer s = .error e) := by
  refine ⟨?_, ?_, ?_⟩
  · intro s ip h
    cases hp : GoNet.parseIPStr s with
    | none =>
      have hev : Validation.ValidateDNSServer s = .error "invalid DNS server IP" := by
        simp [Validation.ValidateDNSServer, hp]
      rw [hev] at h; exact Except.noConfusion h
    | some ip0 =>
      cases hl : GoNet.isLoopback ip0 with
      | true =>
        have hev : Validation.ValidateDNSServer s =
            .error "loopback DNS servers not allowed" := by
          simp [Validation.ValidateDNSServer, hp, hl]
        rw [hev] at h; exact Except.noConfusion h
      | false =>
        cases ht : GoNet.to4 ip0 with
        | none =>
          have hev : Validation.ValidateDNSServer s = .ok ip0 := by
            simp [Validation.ValidateDNSServer, hp, hl, ht]
          rw [hev] at h
          cases Except.ok.inj h
          refine ⟨rfl, hl, ?_⟩
          intro ip4 h4
          rw [ht] at h4
          exact Option.noConfusion h4
        | some ip4 =>
          by_cases hll : ip4.head? = some 169 ∧ ip4[1]? = some 254
          · have hev : Validation.ValidateDNSServer s =
                .error "link-local DNS servers not allowed" := by
              simp [Validation.ValidateDNSServer, hp, hl, ht, hll]
            rw [hev] at h; exact Except.noConfusion h
          · by_cases hmd : s = "169.254.169.254" ∨ s = "168.63.129.16" ∨
                s = "100.100.100.200"
            · have hev : Validation.ValidateDNSServer s =
                  .error "cloud metadata IPs not allowed as DNS servers" := by
                simp [Validation.ValidateDNSServer, hp, hl, ht, hll, hmd]
              rw [hev] at h; exact Except.noConfusion h
            · have hev : Validation.ValidateDNSServer s = .ok ip0 := by
                simp [Validation.ValidateDNSServer, hp, hl, ht, hll, hmd]
              rw [hev] at h
              cases Except.ok.inj h
              refine ⟨rfl, hl, ?_⟩
              intro ip4' h4'
              rw [ht] at h4'
              cases Option.some.inj h4'
              push_neg at hmd
              exact ⟨hll, hmd.1, hmd.2.1, hmd.2.2⟩
  · intro s hp
    exact ⟨"invalid DNS server IP", by simp [Validation.ValidateDNSServer, hp]⟩
  · intro s ip hp hviol
    cases hl : GoNet.isLoopback ip with
    | true =>
      refine ⟨"loopback DNS servers not allowed", ?_⟩
      simp [Validation.ValidateDNSServer, hp, hl]
    | false =>
      rcases hviol with hloop | ⟨ip4, ht, hcase⟩
      · rw [hl] at hloop; exact Bool.noConfusion hloop
      · by_cases hll : ip4.head? = some 169 ∧ ip4[1]? = some 254
        · refine ⟨"link-local DNS servers not allowed", ?_⟩
          simp [Validation.ValidateDNSServer, hp, hl, ht, hll]
        · rcases hcase with h169 | hmd
          · exact absurd h169 hll
          · refine ⟨"cloud metadata IPs not allowed as DNS servers", ?_⟩
            simp [Validation.ValidateDNSServer, hp, hl, ht, hll, hmd]

/-- Witness for C3's amended theorem at concrete inputs. -/
theorem c3_witness :
    GoNet.parseIPStr "8.8.8.8" = some [8, 8, 8, 8] ∧
    GoNet.isLoopback [8, 8, 8, 8] = false ∧
    (∃ e, Validation.ValidateDNSServer "169.254.8.8" = .error e) := by
  have h := c3_dns_validation.1 "8.8.8.8" [8, 8, 8, 8]
    (by rfl)
  refine ⟨h.1, h.2.1, ?_⟩
  exact c3_dns_validation.2.2 "169.254.8.8" [169, 254, 8, 8] (by decide)
    (Or.inr ⟨[169, 254, 8, 8], by decide, Or.inl (by decide)⟩)

namespace Iptables

lemma seqEmit_of_none {a : Emit} (b : Unit → Emit) (ha : a.2.2 = none) :
    seqEmit a b = (a.1 ++ (b ()).1, a.2.1 + (b ()).2.1, (b ()).2.2) := by
  simp [seqEmit, ha]

lemma seqEmit_none_split {a : Emit} {b : Unit → Emit}
    (h : (seqEmit a b).2.2 = none) : a.2.2 = none ∧ (b ()).2.2 = none := by
  cases he : a.2.2 with
  | some e =>
    have hs : seqEmit a b = a := by simp [seqEmit, he]
    rw [hs, he] at h
    exact Option.noConfusion h
  | none =>
    rw [seqEmit_of_none b he] at h
    exact ⟨rfl, h⟩

/-- The emission shape the spec describes for one whitelist/blacklist
entry: a single rule when it has no ports, else one rule per port per
protocol in tcp, udp. -/
def entryRules (chain : String) (r : NetworkRule) (action : String) (fam : Fam) :
    List Rule :=
  if r.ports = [] then
    [{ fam := fam, chain := chain, dest := some r.cidr, jump := action }]
  else
    r.ports.flatMap (fun p =>
      [{ fam := fam, chain := chain, dest := some r.cidr, proto := some "tcp",
         dport := some (toString p), jump := action },
       { fam := fam, chain := chain, dest := some r.cidr, proto := some "udp",
         dport := some (toString p), jump := action }])

lemma portLoop_none (fam : Fam) (chain cidr action : String) :
    ∀ ports, (portLoop fam chain cidr action ports).2.2 = none →
      (portLoop fam chain cidr action ports).1 = ports.flatMap (fun p =>
        [{ fam := fam, chain := chain, dest := some cidr, proto := some "tcp",
           dport := some (toString p), jump := action },
         { fam := fam, chain := chain, dest := some cidr, proto := some "udp",
           dport := some (toString p), jump := action }]) ∧
      (portLoop fam chain cidr action ports).2.1 = 2 * ports.length := by
  intro ports
  induction ports with
  | nil => intro _; simp [portLoop]
  | cons p rest ih =>
    intro h
    cases hv : Validation.ValidatePort p with
    | error e =>
      rw [portLoop, hv] at h
      exact absurd h (by simp)
    | ok u =>
      rw [portLoop, hv] at h ⊢
      have hrest := (seqEmit_none_split h).2
      rw [seqEmit_of_none _ (by simp)]
      have := ih hrest
      simp only [List.flatMap_cons]
      constructor
      · simp [this.1]
      · simp only [this.2, List.length_cons]
        omega

lemma applyNetworkRule_none (chain : String) (r : NetworkRule) (action : String)
    (h : (applyNetworkRule chain r action).2.2 = none) :
    ∃ fam, detectIPVersion r.cidr = .ok fam ∧
      (applyNetworkRule chain r action).1 = entryRules chain r action fam ∧
      (applyNetworkRule chain r action).2.1 =
        (applyNetworkRule chain r action).1.length := by
  cases hc : Validation.ValidateCIDR r.cidr with
  | error e => rw [applyNetworkRule, hc] at h; exact absurd h (by simp)
  | ok n =>
    cases hd : detectIPVersion r.cidr with
    | error e => rw [applyNetworkRule, hc, hd] at h; exact absurd h (by simp)
    | ok fam =>
      refine ⟨fam, rfl, ?_⟩
      by_cases hp : r.ports = []
      · have hev : applyNetworkRule chain r action =
            ([{ fam := fam, chain := chain, dest := some r.cidr, jump := action }],
             1, none) := by
          simp [applyNetworkRule, hc, hd, hp]
        rw [hev, entryRules, if_pos hp]
        exact ⟨rfl, rfl⟩
      · have hev : applyNetworkRule chain r action =
            portLoop fam chain r.cidr action r.ports := by
          simp [applyNetworkRule, hc, hd, hp]
        rw [hev] at h ⊢
        have hl := portLoop_none fam chain r.cidr action r.ports h
        have hlen : ∀ (ps : List Nat) (f g : Nat → Rule),
            (ps.flatMap (fun p => [f p, g p])).length = 2 * ps.length := by
          intro ps f g
          induction ps with
          | nil => simp
          | cons a t iht => simp only [List.flatMap_cons, List.length_append,
              List.length_cons, List.length_nil, iht]; omega
        rw [entryRules, if_neg hp, hl.1, hl.2, hlen]
        exact ⟨rfl, rfl⟩

lemma ruleListLoop_none (chain action : String) :
    ∀ rs, (ruleListLoop chain action rs).2.2 = none →
      (ruleListLoop chain action rs).1 = rs.flatMap (fun r =>
        match detectIPVersion r.cidr with
        | .ok fam => entryRules chain r action fam
        | .error _ => []) ∧
      (ruleListLoop chain action rs).2.1 = (ruleListLoop chain action rs).1.length := by
  intro rs
  induction rs with
  | nil => intro _; simp [ruleListLoop]
  | cons r rest ih =>
    intro h
    cases ha : (applyNetworkRule chain r action).2.2 with
    | some e =>
      have hev : ruleListLoop chain action (r :: rest) =
          ((applyNetworkRule chain r action).1, 0, some e) := by
        simp [ruleListLoop, ha]
      rw [hev] at h
      exact absurd h (by simp)
    | none =>
      have hev : ruleListLoop chain action (r :: rest) =
          seqEmit (applyNetworkRule chain r action)
            (fun _ => ruleListLoop chain action rest) := by
        simp [ruleListLoop, ha]
      rw [hev] at h ⊢
      rw [seqEmit_of_none _ ha] at h ⊢
      have hrest := ih h
      obtain ⟨fam, hd, hshape, hcount⟩ := applyNetworkRule_none chain r action ha
      refine ⟨?_, ?_⟩
      · simp only [List.flatMap_cons, hshape, hd, hrest.1]
      · simp only [List.length_append, hcount, hrest.2]

lemma dnsServerLoop_count (chain : String) :
    ∀ ds, (dnsServerLoop chain ds).2.2 = none →
      (dnsServerLoop chain ds).2.1 = (dnsServerLoop chain ds).1.length := by
  intro ds
  induction ds with
  | nil => intro _; simp [dnsServerLoop]
  | cons dns rest ih =>
    intro h
    cases hv : Validation.ValidateDNSServer dns with
    | error e =>
      have hev : dnsServerLoop chain (dns :: rest) = ([], 0, some e) := by
        simp [dnsServerLoop, hv]
      rw [hev] at h
      exact absurd h (by simp)
    | ok ip =>
      cases hd : detectIPVersion dns with
      | error e =>
        have hev : dnsServerLoop chain (dns :: rest) = ([], 0, some e) := by
          simp [dnsServerLoop, hv, hd]
        rw [hev] at h
        exact absurd h (by simp)
      | ok fam =>
        have hev : dnsServerLoop chain (dns :: rest) =
            seqEmit (["udp", "tcp"].map (fun proto =>
              { fam := fam, chain := chain, dest := some dns, proto := some proto,
                dport := some "53", jump := "ACCEPT" : Rule }), 2, none)
              (fun _ => dnsServerLoop chain rest) := by
          simp [dnsServerLoop, hv, hd]
        rw [hev] at h ⊢
        rw [seqEmit_of_none _ (by simp)] at h ⊢
        dsimp only at h ⊢
        rw [List.length_append, List.length_map, ih h]
        simp

lemma dnsRules_count (chain : String) (ds : List String)
    (h : (dnsRules chain ds).2.2 = none) :
    (dnsRules chain ds).2.1 = (dnsRules chain ds).1.length := by
  unfold dnsRules at h ⊢
  rw [seqEmit_of_none _ (by simp)] at h ⊢
  have := dnsServerLoop_count chain ds h
  simp only [List.length_append, this]
  simp

end Iptables

namespace Iptables

lemma seqEmit5 (a b c d e f : Emit)
    (ha : a.2.2 = none) (hb : b.2.2 = none) (hc : c.2.2 = none)
    (hd : d.2.2 = none) (he : e.2.2 = none) :
    seqEmit a (fun _ => seqEmit b (fun _ => seqEmit c (fun _ =>
        seqEmit d (fun _ => seqEmit e (fun _ => f))))) =
      (a.1 ++ (b.1 ++ (c.1 ++ (d.1 ++ (e.1 ++ f.1)))),
       a.2.1 + (b.2.1 + (c.2.1 + (d.2.1 + (e.2.1 + f.2.1)))), f.2.2) := by
  rw [seqEmit_of_none _ ha]
  rw [seqEmit_of_none _ hb]
  rw [seqEmit_of_none _ hc]
  rw [seqEmit_of_none _ hd]
  rw [seqEmit_of_none _ he]

/-- `ApplyRules` on a valid policy mode, written as its emission chain. -/
lemma applyRules_decomp (bridge : List String) (chain : String) (pp : String)
    (bm ad : Bool) (ds : List String) (wl bl : List NetworkRule)
    (hpm : pp = "allow" ∨ pp = "deny") :
    ApplyRules bridge chain
        { policy := pp, blockMetadata := bm, allowDns := ad, dnsServers := ds,
          whitelist := wl, blacklist := bl } =
      seqEmit (bridgeRules chain bridge, (bridgeRules chain bridge).length, none)
        (fun _ => seqEmit (if bm then
            (metadataRules chain ad, (metadataRules chain ad).length, none)
          else ([], 0, none)) (fun _ =>
          seqEmit (if ad then dnsRules chain ds else ([], 0, none)) (fun _ =>
            seqEmit (if pp = "deny" ∧ wl ≠ [] then ruleListLoop chain "ACCEPT" wl
              else ([], 0, none)) (fun _ =>
              seqEmit (if pp = "allow" ∧ bl ≠ [] then ruleListLoop chain "DROP" bl
                else ([], 0, none)) (fun _ =>
                (defaultRules chain pp, 2, none)))))) := by
  rcases hpm with h | h <;> subst h <;> rfl

end Iptables

namespace Iptables

lemma filter_getLast_default (chain pp : String) (p : Rule → Bool) (d : Rule)
    (hd : (defaultRules chain pp).filter p = [d]) (pre : List Rule) :
    ((pre ++ defaultRules chain pp).filter p).getLast? = some d := by
  rw [List.filter_append, hd,
    List.getLast?_append_of_ne_nil _ (by simp)]
  rfl

end Iptables

/-! ## Claim C4 -/


namespace Iptables

/-- Inversion of a successful six-segment emission chain: the emitted rules
are the segment concatenation and the count adds up to the total length. -/
lemma seqChain_inversion (brR : List Rule) (mdE dnsE wlE blE : Emit)
    (df : List Rule) (rules : List Rule) (count : Nat)
    (h : seqEmit (brR, brR.length, none) (fun _ => seqEmit mdE (fun _ =>
        seqEmit dnsE (fun _ => seqEmit wlE (fun _ =>
          seqEmit blE (fun _ => (df, 2, none)))))) = (rules, count, none))
    (hdf : df.length = 2)
    (hmdc : mdE.2.2 = none → mdE.2.1 = mdE.1.length)
    (hdnsc : dnsE.2.2 = none → dnsE.2.1 = dnsE.1.length)
    (hwlc : wlE.2.2 = none → wlE.2.1 = wlE.1.length)
    (hblc : blE.2.2 = none → blE.2.1 = blE.1.length) :
    rules = brR ++ (mdE.1 ++ (dnsE.1 ++ (wlE.1 ++ (blE.1 ++ df)))) ∧
    count = rules.length ∧
    mdE.2.2 = none ∧ dnsE.2.2 = none ∧ wlE.2.2 = none ∧ blE.2.2 = none := by
  have herr : (seqEmit (brR, brR.length, none) (fun _ => seqEmit mdE (fun _ =>
      seqEmit dnsE (fun _ => seqEmit wlE (fun _ =>
        seqEmit blE (fun _ => (df, 2, none))))))).2.2 = none := by
    rw [h]
  obtain ⟨-, h2⟩ := seqEmit_none_split herr
  obtain ⟨hmd, h3⟩ := seqEmit_none_split h2
  obtain ⟨hdns, h4⟩ := seqEmit_none_split h3
  obtain ⟨hwl, h5⟩ := seqEmit_none_split h4
  obtain ⟨hbl, -⟩ := seqEmit_none_split h5
  rw [seqEmit5 _ _ _ _ _ _ rfl hmd hdns hwl hbl] at h
  simp only [Prod.mk.injEq, and_true] at h
  obtain ⟨hR, hC⟩ := h
  refine ⟨hR.symm, ?_, hmd, hdns, hwl, hbl⟩
  rw [← hC, ← hR]
  simp only [List.length_append, hmdc hmd, hdnsc hdns, hwlc hwl, hblc hbl, hdf]

lemma filter_getLast_nested (chain pp : String) (p : Rule → Bool) (d : Rule)
    (hd : (defaultRules chain pp).filter p = [d]) (x1 x2 x3 x4 x5 : List Rule) :
    ((x1 ++ (x2 ++ (x3 ++ (x4 ++ (x5 ++ defaultRules chain pp))))).filter p).getLast? =
      some d := by
  rw [show x1 ++ (x2 ++ (x3 ++ (x4 ++ (x5 ++ defaultRules chain pp)))) =
      (x1 ++ (x2 ++ (x3 ++ (x4 ++ x5)))) ++ defaultRules chain pp from by
    simp [List.append_assoc]]
  exact filter_getLast_default chain pp p d hd _

lemma emitIf_count (b : Bool) (x : Emit)
    (hx : x.2.2 = none → x.2.1 = x.1.length) :
    (if b then x else (([], 0, none) : Emit)).2.2 = none →
    (if b then x else (([], 0, none) : Emit)).2.1 =
      (if b then x else (([], 0, none) : Emit)).1.length := by
  cases b <;> simp_all

end Iptables

/-! ## Claim C4 -/

/-- C4: on every chain and every policy in mode `allow` or `deny`,
successful `ApplyRules` output satisfies: the reported count equals the
number of emitted rules; the last rule of each address family is the
default verdict (`ACCEPT` for `allow`, `DROP` for `deny`); the whitelist
contributes rules only under `deny` (replacing it by `[]` under `allow`
changes nothing) and then contributes, per entry, one accept without ports
or one accept per port per protocol in tcp, udp (`entryRules`);
symmetrically the blacklist contributes drops only under `allow`. -/
theorem c4_applyrules_emission :
    ∀ (bridge : List String) (chain : String) (policy : Iptables.NetworkPolicy)
      (rules : List Iptables.Rule) (count : Nat),
      (policy.policy = "allow" ∨ policy.policy = "deny") →
      Iptables.ApplyRules bridge chain policy = (rules, count, none) →
      count = rules.length ∧
      (rules.filter (fun r => decide (r.fam = Iptables.Fam.v4))).getLast? =
        some { fam := .v4, chain := chain,
               jump := if policy.policy = "allow" then "ACCEPT" else "DROP" } ∧
      (rules.filter (fun r => decide (r.fam = Iptables.Fam.v6))).getLast? =
        some { fam := .v6, chain := chain,
               jump := if policy.policy = "allow" then "ACCEPT" else "DROP" } ∧
      (policy.policy = "allow" →
        Iptables.ApplyRules bridge chain { policy with whitelist := [] } =
          (rules, count, none)) ∧
      (policy.policy = "deny" →
        Iptables.ApplyRules bridge chain { policy with blacklist := [] } =
          (rules, count, none)) ∧
      (policy.policy = "deny" → ∃ pre, rules =
        pre ++ policy.whitelist.flatMap (fun r =>
          match Iptables.detectIPVersion r.cidr with
          | .ok fam => Iptables.entryRules chain r "ACCEPT" fam
          | .error _ => []) ++ Iptables.defaultRules chain policy.policy) ∧
      (policy.policy = "allow" → ∃ pre, rules =
        pre ++ policy.blacklist.flatMap (fun r =>
          match Iptables.detectIPVersion r.cidr with
          | .ok fam => Iptables.entryRules chain r "DROP" fam
          | .error _ => []) ++ Iptables.defaultRules chain policy.policy) := by
  intro bridge chain policy rules count hpm happly
  obtain ⟨pp, bm, ad, ds, wl, bl⟩ := policy
  simp only at hpm happly ⊢
  rcases hpm with hpp | hpp
  · -- allow
    subst hpp
    rw [Iptables.applyRules_decomp bridge chain "allow" bm ad ds wl bl
      (Or.inl rfl)] at happly
    rw [show (if "allow" = "deny" ∧ wl ≠ [] then
        Iptables.ruleListLoop chain "ACCEPT" wl else ([], 0, none)) =
        (([], 0, none) : Iptables.Emit) from by simp] at happly
    rw [show (if "allow" = "allow" ∧ bl ≠ [] then
        Iptables.ruleListLoop chain "DROP" bl else ([], 0, none)) =
        Iptables.ruleListLoop chain "DROP" bl from by
      by_cases h : bl = [] <;> simp [h, Iptables.ruleListLoop]] at happly
    have happly0 := happly
    obtain ⟨hR, hC, hmd, hdns, -, hbl⟩ :=
      Iptables.seqChain_inversion _ _ _ _ _ _ _ _ happly rfl
        (Iptables.emitIf_count bm _ (fun _ => rfl))
        (Iptables.emitIf_count ad _ (Iptables.dnsRules_count chain ds))
        (fun _ => rfl)
        (fun h => (Iptables.ruleListLoop_none chain "DROP" bl h).2)
    refine ⟨hC, ?_, ?_, ?_, ?_, ?_, ?_⟩
    · rw [hR, if_pos rfl]
      exact Iptables.filter_getLast_nested chain "allow"
        (fun r => decide (r.fam = Iptables.Fam.v4))
        { fam := .v4, chain := chain, jump := "ACCEPT" } rfl _ _ _ _ _
    · rw [hR, if_pos rfl]
      exact Iptables.filter_getLast_nested chain "allow"
        (fun r => decide (r.fam = Iptables.Fam.v6))
        { fam := .v6, chain := chain, jump := "ACCEPT" } rfl _ _ _ _ _
    · intro _
      rw [Iptables.applyRules_decomp bridge chain "allow" bm ad ds [] bl
        (Or.inl rfl)]
      rw [show (if "allow" = "deny" ∧ ([] : List Iptables.NetworkRule) ≠ [] then
          Iptables.ruleListLoop chain "ACCEPT" [] else ([], 0, none)) =
          (([], 0, none) : Iptables.Emit) from by simp]
      rw [show (if "allow" = "allow" ∧ bl ≠ [] then
          Iptables.ruleListLoop chain "DROP" bl else ([], 0, none)) =
          Iptables.ruleListLoop chain "DROP" bl from by
        by_cases h : bl = [] <;> simp [h, Iptables.ruleListLoop]]
      exact happly0
    · intro h; exact absurd h (by decide)
    · intro h; exact absurd h (by decide)
    · intro _
      refine ⟨Iptables.bridgeRules chain bridge ++
        (((if bm then (Iptables.metadataRules chain ad,
            (Iptables.metadataRules chain ad).length, none)
          else ([], 0, none) : Iptables.Emit)).1 ++
         ((if ad then Iptables.dnsRules chain ds else ([], 0, none) :
            Iptables.Emit)).1), ?_⟩
      rw [hR, (Iptables.ruleListLoop_none chain "DROP" bl hbl).1]
      simp [List.append_assoc]
  · -- deny
    subst hpp
    rw [Iptables.applyRules_decomp bridge chain "deny" bm ad ds wl bl
      (Or.inr rfl)] at happly
    rw [show (if "deny" = "deny" ∧ wl ≠ [] then
        Iptables.ruleListLoop chain "ACCEPT" wl else ([], 0, none)) =
        Iptables.ruleListLoop chain "ACCEPT" wl from by
      by_cases h : wl = [] <;> simp [h, Iptables.ruleListLoop]] at happly
    rw [show (if "deny" = "allow" ∧ bl ≠ [] then
        Iptables.ruleListLoop chain "DROP" bl else ([], 0, none)) =
        (([], 0, none) : Iptables.Emit) from by simp] at happly
    have happly0 := happly
    obtain ⟨hR, hC, hmd, hdns, hwl, -⟩ :=
      Iptables.seqChain_inversion _ _ _ _ _ _ _ _ happly rfl
        (Iptables.emitIf_count bm _ (fun _ => rfl))
        (Iptables.emitIf_count ad _ (Iptables.dnsRules_count chain ds))
        (fun h => (Iptables.ruleListLoop_none chain "ACCEPT" wl h).2)
        (fun _ => rfl)
    refine ⟨hC, ?_, ?_, ?_, ?_, ?_, ?_⟩
    · rw [hR, if_neg (show ¬("deny" = "allow") from by decide)]
      exact Iptables.filter_getLast_nested chain "deny"
        (fun r => decide (r.fam = Iptables.Fam.v4))
        { fam := .v4, chain := chain, jump := "DROP" } rfl _ _ _ _ _
    · rw [hR, if_neg (show ¬("deny" = "allow") from by decide)]
      exact Iptables.filter_getLast_nested chain "deny"
        (fun r => decide (r.fam = Iptables.Fam.v6))
        { fam := .v6, chain := chain, jump := "DROP" } rfl _ _ _ _ _
    · intro h; exact absurd h (by decide)
    · intro _
      rw [Iptables.applyRules_decomp bridge chain "deny" bm ad ds wl []
        (Or.inr rfl)]
      rw [show (if "deny" = "deny" ∧ wl ≠ [] then
          Iptables.ruleListLoop chain "ACCEPT" wl else ([], 0, none)) =
          Iptables.ruleListLoop chain "ACCEPT" wl from by
        by_cases h : wl = [] <;> simp [h, Iptables.ruleListLoop]]
      rw [show (if "deny" = "allow" ∧ ([] : List Iptables.NetworkRule) ≠ [] then
          Iptables.ruleListLoop chain "DROP" [] else ([], 0, none)) =
          (([], 0, none) : Iptables.Emit) from by simp]
      exact happly0
    · intro _
      refine ⟨Iptables.bridgeRules chain bridge ++
        (((if bm then (Iptables.metadataRules chain ad,
            (Iptables.metadataRules chain ad).length, none)
          else ([], 0, none) : Iptables.Emit)).1 ++
         ((if ad then Iptables.dnsRules chain ds else ([], 0, none) :
            Iptables.Emit)).1), ?_⟩
      rw [hR, (Iptables.ruleListLoop_none chain "ACCEPT" wl hwl).1]
      simp [List.append_assoc]
    · intro h; exact absurd h (by decide)

/-- Witness for C4 at a concrete deny-mode policy. -/
theorem c4_witness :
    (4 : Nat) =
      ([{ fam := .v4, chain := "ISO-0123456789abcdef", dest := some "1.2.3.0/24",
            proto := some "tcp", dport := some "80", jump := "ACCEPT" },
        { fam := .v4, chain := "ISO-0123456789abcdef", dest := some "1.2.3.0/24",
            proto := some "udp", dport := some "80", jump := "ACCEPT" },
        { fam := .v4, chain := "ISO-0123456789abcdef", jump := "DROP" },
        { fam := .v6, chain := "ISO-0123456789abcdef", jump := "DROP" }] :
        List Iptables.Rule).length :=
  (c4_applyrules_emission [] "ISO-0123456789abcdef"
    { policy := "deny", whitelist := [{ cidr := "1.2.3.0/24", ports := [80] }] }
    [{ fam := .v4, chain := "ISO-0123456789abcdef", dest := some "1.2.3.0/24",
         proto := some "tcp", dport := some "80", jump := "ACCEPT" },
     { fam := .v4, chain := "ISO-0123456789abcdef", dest := some "1.2.3.0/24",
         proto := some "udp", dport := some "80", jump := "ACCEPT" },
     { fam := .v4, chain := "ISO-0123456789abcdef", jump := "DROP" },
     { fam := .v6, chain := "ISO-0123456789abcdef", jump := "DROP" }]
    4 (Or.inr rfl) (by decide)).1

namespace Config

/-- The spec's notion of a whitelist CIDR overlapping a mandatory blocked
range (via the code's overlap test on the parsed networks). -/
def overlapsMandatory (s : String) : Prop :=
  ∃ n, GoNet.parseCIDRStr s = some n ∧
    ∃ b ∈ MandatoryBlockedRanges, ∃ bn, GoNet.parseCIDRStr b = some bn ∧
      networksOverlap n bn = true

/-- The find? predicate of `ValidateWhitelistEntry`'s overlap loop. -/
lemma vwe_ok_no_overlap {e : WhitelistEntry} (h : ValidateWhitelistEntry e = .ok ())
    (h0 : e.cidr ≠ "0.0.0.0/0") (h6 : e.cidr ≠ "::/0") :
    ¬ overlapsMandatory e.cidr := by
  rintro ⟨n, hn, b, hbmem, bn, hbn, hov⟩
  by_cases hne : e.cidr = ""
  · have : GoNet.parseCIDRStr "" = none := rfl
    rw [hne, this] at hn
    exact Option.noConfusion hn
  · have hsp : ¬(e.cidr = "0.0.0.0/0" ∨ e.cidr = "::/0") := by
      rintro (h | h) <;> [exact h0 h; exact h6 h]
    cases hfind : MandatoryBlockedRanges.find? (fun blocked =>
        match GoNet.parseCIDRStr blocked with
        | some blockedNet => networksOverlap n blockedNet
        | none => false) with
    | some v =>
      have hev : ValidateWhitelistEntry e = .error "CIDR overlaps with forbidden range" := by
        simp [ValidateWhitelistEntry, hne, hn, hsp, hfind]
      rw [hev] at h
      exact Except.noConfusion h
    | none =>
      have hall := List.find?_eq_none.mp hfind b hbmem
      rw [hbn] at hall
      simp [hov] at hall

lemma vwe_error_of_overlap {e : WhitelistEntry}
    (h0 : e.cidr ≠ "0.0.0.0/0") (h6 : e.cidr ≠ "::/0")
    (hov : overlapsMandatory e.cidr) :
    ValidateWhitelistEntry e = .error "CIDR overlaps with forbidden range" := by
  obtain ⟨n, hn, b, hbmem, bn, hbn, hovb⟩ := hov
  have hne : e.cidr ≠ "" := by
    intro h0'
    have : GoNet.parseCIDRStr "" = none := rfl
    rw [h0', this] at hn
    exact Option.noConfusion hn
  have hsp : ¬(e.cidr = "0.0.0.0/0" ∨ e.cidr = "::/0") := by
    rintro (h | h) <;> [exact h0 h; exact h6 h]
  have hfind : (MandatoryBlockedRanges.find? (fun blocked =>
      match GoNet.parseCIDRStr blocked with
      | some blockedNet => networksOverlap n blockedNet
      | none => false)).isSome := by
    rw [List.find?_isSome]
    exact ⟨b, hbmem, by rw [hbn]; simpa using hovb⟩
  obtain ⟨v, hfind2⟩ := Option.isSome_iff_exists.mp hfind
  simp [ValidateWhitelistEntry, hne, hn, hsp, hfind2]

lemma validateWhitelist_ok_mem {wl : List WhitelistEntry}
    (h : validateWhitelist wl = .ok ()) :
    ∀ e ∈ wl, ValidateWhitelistEntry e = .ok () := by
  induction wl with
  | nil => intro e he; exact absurd he (List.not_mem_nil e)
  | cons a rest ih =>
    intro e he
    cases hv : ValidateWhitelistEntry a with
    | error m =>
      rw [validateWhitelist, hv] at h
      exact Except.noConfusion h
    | ok u =>
      rw [validateWhitelist, hv] at h
      rcases List.mem_cons.mp he with rfl | hmem
      · cases u; exact hv
      · exact ih (by simpa using h) e hmem

lemma validateWhitelist_error_of_mem {wl : List WhitelistEntry} {e : WhitelistEntry}
    {m : String} (hmem : e ∈ wl) (he : ValidateWhitelistEntry e = .error m) :
    ∃ m2, validateWhitelist wl = .error m2 := by
  induction wl with
  | nil => exact absurd hmem (List.not_mem_nil e)
  | cons a rest ih =>
    rcases List.mem_cons.mp hmem with rfl | hmem2
    · exact ⟨m, by rw [validateWhitelist, he]; rfl⟩
    · cases hv : ValidateWhitelistEntry a with
      | error m3 => exact ⟨m3, by rw [validateWhitelist, hv]; rfl⟩
      | ok u =>
        obtain ⟨m2, hm2⟩ := ih hmem2
        cases u
        exact ⟨m2, by rw [validateWhitelist, hv]; simpa using hm2⟩

lemma enforceSecurityRules_ok_inv {cfg res : NetworkConfig}
    (h : EnforceSecurityRules cfg = .ok res) :
    validateWhitelist cfg.whitelist = .ok () ∧ res.whitelist = cfg.whitelist := by
  cases hv : validateWhitelist cfg.whitelist with
  | error m =>
    have hev : EnforceSecurityRules cfg = .error m := by
      rw [EnforceSecurityRules]
      simp only [hv]
      rfl
    rw [hev] at h
    exact Except.noConfusion h
  | ok u =>
    cases u
    refine ⟨rfl, ?_⟩
    have hev : EnforceSecurityRules cfg =
        .ok { cfg with
              blockMetadata := true,
              blacklist := deduplicateBlacklist ((cfg.blacklist ++
                createMandatoryBlacklist) ++ filterPrivateRanges cfg.whitelist) } := by
      rw [EnforceSecurityRules]
      simp only [hv]
      rfl
    rw [hev] at h
    cases Except.ok.inj h
    rfl

lemma enforceSecurityRules_error_of {cfg : NetworkConfig} {m : String}
    (hv : validateWhitelist cfg.whitelist = .error m) :
    EnforceSecurityRules cfg = .error m := by
  rw [EnforceSecurityRules]
  simp only [hv]
  rfl

end Config

/-! ## Claim C1 -/

/-- C1: if any whitelist entry other than the literal `0.0.0.0/0`/`::/0`
overlaps a mandatory blocked range, `EnforceSecurityRules` errors;
consequently on success every whitelist entry it passed through the
overlap check (i.e. every entry other than those two literals) overlaps no
mandatory blocked range, and the whitelist itself is unchanged. -/
theorem c1_whitelist_mandatory_blocks :
    ∀ (cfg : Config.NetworkConfig),
      ((∃ e ∈ cfg.whitelist, e.cidr ≠ "0.0.0.0/0" ∧ e.cidr ≠ "::/0" ∧
          Config.overlapsMandatory e.cidr) →
        ∃ msg, Config.EnforceSecurityRules cfg = .error msg) ∧
      (∀ res, Config.EnforceSecurityRules cfg = .ok res →
        res.whitelist = cfg.whitelist ∧
        ∀ e ∈ cfg.whitelist, e.cidr ≠ "0.0.0.0/0" → e.cidr ≠ "::/0" →
          ¬ Config.overlapsMandatory e.cidr) := by
  intro cfg
  constructor
  · rintro ⟨e, hmem, h0, h6, hov⟩
    obtain ⟨m2, hm2⟩ := Config.validateWhitelist_error_of_mem hmem
      (Config.vwe_error_of_overlap h0 h6 hov)
    exact ⟨m2, Config.enforceSecurityRules_error_of hm2⟩
  · intro res hres
    obtain ⟨hwl, hres_wl⟩ := Config.enforceSecurityRules_ok_inv hres
    refine ⟨hres_wl, ?_⟩
    intro e hmem h0 h6
    exact Config.vwe_ok_no_overlap (Config.validateWhitelist_ok_mem hwl e hmem) h0 h6

/-- Witness for C1: a localhost whitelist entry makes enforcement fail. -/
theorem c1_witness :
    ∃ msg, Config.EnforceSecurityRules
      { defaultPolicy := "deny",
        whitelist := [{ cidr := "127.0.0.1/32" }] } = .error msg :=
  (c1_whitelist_mandatory_blocks _).1
    ⟨{ cidr := "127.0.0.1/32" }, by decide, by decide, by decide,
     ⟨{ ip := [127, 0, 0, 1], maskLen := 32 }, by decide, "127.0.0.0/8", by decide,
      ⟨{ ip := [127, 0, 0, 0], maskLen := 8 }, by decide, by decide⟩⟩⟩

namespace Lifecycle

/-- `buildNetworkPolicy` (isolation runner): the validated network config
as the protobuf policy sent to the Bastion; port strings are scanned with
`Sscanf "%d"`, an unscannable port becoming 0. -/
def buildNetworkPolicy (cfg : Config.NetworkConfig) : Iptables.NetworkPolicy :=
  { policy := cfg.defaultPolicy
    blockMetadata := cfg.blockMetadata
    allowDns := cfg.allowDns
    dnsServers := cfg.dnsServers
    whitelist := cfg.whitelist.map (fun entry =>
      { cidr := entry.cidr
        description := entry.description
        ports := entry.ports.map (fun p =>
          match Config.scanUint p.toList with
          | some (n, _) => n
          | none => 0) })
    blacklist := cfg.blacklist.map (fun entry =>
      { cidr := entry.cidr, description := entry.description, ports := [] }) }

end Lifecycle

/-! ## Claim C2 -/

/-- C2 counterexample: under `defaultPolicy = "allow"` with the whitelist
entry `10.1.2.0/24`, `EnforceSecurityRules` omits the whole of `10.0.0.0/8`
from the blacklist, and the compiled chain ACCEPTs a packet to
`10.255.0.1` — an address inside the private range `10.0.0.0/8` but outside
the overlapping whitelist entry.  The remainder of the private range is
therefore *not* blocked, refuting the claim that only the specifically
overlapped range is permitted. -/
theorem c2_claim_counterexample :
    (((Config.EnforceSecurityRules
          { defaultPolicy := "allow",
            whitelist := [{ cidr := "10.1.2.0/24" }] }).map
        (fun res =>
          Iptables.ApplyRules Iptables.defaultBridgeSubnets "ISO-0123456789abcdef"
            (Lifecycle.buildNetworkPolicy res))).toOption.map
      (fun out =>
        (out.2.2,
         Iptables.verdict out.1
           { fam := .v4, dst := [10, 255, 0, 1], proto := "tcp", dport := 443 }))) =
      some (none, some "ACCEPT") ∧
    (GoNet.parseCIDRStr "10.0.0.0/8").map
      (fun n => GoNet.contains n [10, 255, 0, 1]) = some true ∧
    (GoNet.parseCIDRStr "10.1.2.0/24").map
      (fun n => GoNet.contains n [10, 255, 0, 1]) = some false :=
  ⟨by decide, by decide, by decide⟩

namespace Config

/-- Membership in `filterPrivateRanges`: a private range appears exactly
when no (parseable) whitelist entry overlaps it. -/
lemma filterPrivateRanges_mem (wl : List WhitelistEntry) (pr : String)
    (pn : GoNet.IPNet) (hpr : pr ∈ PrivateRanges)
    (hparse : GoNet.parseCIDRStr pr = some pn) :
    (∃ e ∈ filterPrivateRanges wl, e.cidr = pr) ↔
      wl.any (fun e =>
        match GoNet.parseCIDRStr e.cidr with
        | some entryNet => networksOverlap pn entryNet
        | none => false) = false := by
  constructor
  · rintro ⟨e, he, hc⟩
    rw [filterPrivateRanges, List.mem_filterMap] at he
    obtain ⟨a, ha, hfa⟩ := he
    cases hpa : GoNet.parseCIDRStr a with
    | none => rw [hpa] at hfa; exact absurd hfa (by simp)
    | some an =>
      rw [hpa] at hfa
      dsimp only at hfa
      cases hwl : wl.any (fun e =>
          match GoNet.parseCIDRStr e.cidr with
          | some entryNet => networksOverlap an entryNet
          | none => false) with
      | true =>
        rw [hwl] at hfa
        exact absurd hfa (by simp)
      | false =>
        rw [hwl] at hfa
        simp only [Bool.false_eq_true, if_false, Option.some.injEq] at hfa
        have hea : e.cidr = a := by rw [← hfa]
        have hapr : a = pr := by rw [← hea, hc]
        subst hapr
        rw [hparse] at hpa
        cases Option.some.inj hpa
        exact hwl
  · intro hany
    refine ⟨{ cidr := pr,
              description := "Private IP range (blocked unless whitelisted)" },
      ?_, rfl⟩
    rw [filterPrivateRanges, List.mem_filterMap]
    refine ⟨pr, hpr, ?_⟩
    rw [hparse]
    dsimp only
    rw [hany]
    simp

/-- The deduplication fold preserves the normalised-CIDR membership. -/
lemma dedup_fold_norm (c : String) : ∀ (l : List BlacklistEntry)
    (seen : List String) (acc : List BlacklistEntry),
    seen = acc.map (fun e => normCidr e.cidr) →
    ((∃ e ∈ (l.foldl (fun acc entry =>
        let cidr := normCidr entry.cidr
        if acc.1.contains cidr then acc
        else (cidr :: acc.1, entry :: acc.2)) (seen, acc)).2,
      normCidr e.cidr = c) ↔
      (∃ e ∈ acc, normCidr e.cidr = c) ∨ ∃ e ∈ l, normCidr e.cidr = c) := by
  intro l
  induction l with
  | nil => intro seen acc hinv; simp
  | cons x t ih =>
    intro seen acc hinv
    rw [List.foldl_cons]
    by_cases hc : seen.contains (normCidr x.cidr) = true
    · rw [show (let cidr := normCidr x.cidr;
          if (seen, acc).1.contains cidr then (seen, acc)
          else (cidr :: (seen, acc).1, x :: (seen, acc).2)) = (seen, acc) from by
        dsimp only; rw [hc]; rfl]
      rw [ih seen acc hinv]
      have hmem : ∃ e ∈ acc, normCidr e.cidr = normCidr x.cidr := by
        have hx : normCidr x.cidr ∈ seen := List.elem_iff.mp hc
        rw [hinv] at hx
        obtain ⟨e, he, hne⟩ := List.mem_map.mp hx
        exact ⟨e, he, hne⟩
      constructor
      · rintro (h | ⟨e, he, hec⟩)
        · exact Or.inl h
        · exact Or.inr ⟨e, List.mem_cons_of_mem x he, hec⟩
      · rintro (h | ⟨e, he, hec⟩)
        · exact Or.inl h
        · rcases List.mem_cons.mp he with rfl | het
          · obtain ⟨a, ha, hac⟩ := hmem
            exact Or.inl ⟨a, ha, hac.trans hec⟩
          · exact Or.inr ⟨e, het, hec⟩
    · rw [show (let cidr := normCidr x.cidr;
          if (seen, acc).1.contains cidr then (seen, acc)
          else (cidr :: (seen, acc).1, x :: (seen, acc).2)) =
          (normCidr x.cidr :: seen, x :: acc) from by
        dsimp only; rw [if_neg hc]]
      rw [ih (normCidr x.cidr :: seen) (x :: acc) (by simp [hinv])]
      constructor
      · rintro (⟨e, he, hec⟩ | h)
        · rcases List.mem_cons.mp he with rfl | het
          · exact Or.inr ⟨e, List.mem_cons_self e t, hec⟩
          · exact Or.inl ⟨e, het, hec⟩
        · exact Or.inr (h.imp (fun e hh => ⟨List.mem_cons_of_mem x hh.1, hh.2⟩))
      · rintro (h | ⟨e, he, hec⟩)
        · exact Or.inl (h.imp (fun e hh => ⟨List.mem_cons_of_mem x hh.1, hh.2⟩))
        · rcases List.mem_cons.mp he with rfl | het
          · exact Or.inl ⟨e, List.mem_cons_self e acc, hec⟩
          · exact Or.inr ⟨e, het, hec⟩

/-- `deduplicateBlacklist` preserves the set of normalised CIDRs. -/
lemma dedup_norm_mem (l : List BlacklistEntry) (c : String) :
    (∃ e ∈ deduplicateBlacklist l, normCidr e.cidr = c) ↔
      ∃ e ∈ l, normCidr e.cidr = c := by
  have h := dedup_fold_norm c l [] [] (by simp)
  simp only [List.not_mem_nil, false_and, exists_false, false_or] at h
  rw [deduplicateBlacklist]
  constructor
  · rintro ⟨e, he, hec⟩
    exact h.mp ⟨e, List.mem_reverse.mp he, hec⟩
  · intro hx
    obtain ⟨e, he, hec⟩ := h.mpr hx
    exact ⟨e, List.mem_reverse.mpr he, hec⟩

/-- On success the blacklist is the deduplicated concatenation of the
user blacklist, the mandatory blacklist and the surviving private
ranges. -/
lemma enforceSecurityRules_ok_blacklist {cfg res : NetworkConfig}
    (h : EnforceSecurityRules cfg = .ok res) :
    res.blacklist = deduplicateBlacklist ((cfg.blacklist ++
      createMandatoryBlacklist) ++ filterPrivateRanges cfg.whitelist) := by
  cases hv : validateWhitelist cfg.whitelist with
  | error m => rw [enforceSecurityRules_error_of hv] at h; exact Except.noConfusion h
  | ok u =>
    cases u
    have hev : EnforceSecurityRules cfg =
        .ok { cfg with
              blockMetadata := true,
              blacklist := deduplicateBlacklist ((cfg.blacklist ++
                createMandatoryBlacklist) ++ filterPrivateRanges cfg.whitelist) } := by
      rw [EnforceSecurityRules]
      simp only [hv]
      rfl
    rw [hev] at h
    cases Except.ok.inj h
    rfl

end Config

namespace Iptables

lemma dportMatches_53 (d : Nat) : dportMatches "53" d = decide (d = 53) := rfl

lemma ruleMatches_dport_false {r : Rule} {p : Packet} (hd : r.dport = some "53")
    (hp : p.dport ≠ 53) : ruleMatches r p = false := by
  rw [ruleMatches, hd]
  simp [dportMatches_53, hp]

lemma ruleMatches_dest_false {r : Rule} {p : Packet} {d : String}
    (hd : r.dest = some d) (hm : destMatches d p.dst = false) :
    ruleMatches r p = false := by
  rw [ruleMatches, hd]
  simp [hm]

lemma bridgeRules_jump {chain : String} {bs : List String} {r : Rule}
    (h : r ∈ bridgeRules chain bs) : r.jump = "DROP" := by
  rw [bridgeRules, List.mem_filterMap] at h
  obtain ⟨s, hs, hf⟩ := h
  cases hd : detectIPVersion s with
  | error e => rw [hd] at hf; exact absurd hf (by simp)
  | ok fam =>
    rw [hd] at hf
    cases Option.some.inj hf
    rfl

lemma metadataRules_mem {chain : String} {ad : Bool} {r : Rule}
    (h : r ∈ metadataRules chain ad) : r.jump = "DROP" ∨ r.dport = some "53" := by
  rw [metadataRules] at h
  rcases List.mem_append.mp h with h1 | h2
  · cases ad with
    | false => simp at h1
    | true =>
      rw [if_pos rfl] at h1
      obtain ⟨proto, hproto, hr⟩ := List.mem_map.mp h1
      cases hr
      exact Or.inr rfl
  · simp only [List.mem_cons, List.not_mem_nil, or_false] at h2
    rcases h2 with rfl | rfl | rfl | rfl | rfl | rfl | rfl | rfl | rfl <;>
      exact Or.inl rfl

lemma dnsServerLoop_mem {chain : String} {r : Rule} :
    ∀ ds, r ∈ (dnsServerLoop chain ds).1 → r.dport = some "53" := by
  intro ds
  induction ds with
  | nil => intro h; simp [dnsServerLoop] at h
  | cons dns rest ih =>
    intro h
    cases hv : Validation.ValidateDNSServer dns with
    | error e =>
      have hev : dnsServerLoop chain (dns :: rest) = ([], 0, some e) := by
        simp [dnsServerLoop, hv]
      rw [hev] at h
      simp at h
    | ok ip =>
      cases hd : detectIPVersion dns with
      | error e =>
        have hev : dnsServerLoop chain (dns :: rest) = ([], 0, some e) := by
          simp [dnsServerLoop, hv, hd]
        rw [hev] at h
        simp at h
      | ok fam =>
        have hev : dnsServerLoop chain (dns :: rest) =
            seqEmit (["udp", "tcp"].map (fun proto =>
              { fam := fam, chain := chain, dest := some dns, proto := some proto,
                dport := some "53", jump := "ACCEPT" : Rule }), 2, none)
              (fun _ => dnsServerLoop chain rest) := by
          simp [dnsServerLoop, hv, hd]
        rw [hev, seqEmit_of_none _ (by simp)] at h
        dsimp only at h
        rcases List.mem_append.mp h with h1 | h1
        · obtain ⟨proto, hproto, hr⟩ := List.mem_map.mp h1
          cases hr
          rfl
        · exact ih h1

lemma dnsRules_mem {chain : String} {ds : List String} {r : Rule}
    (h : r ∈ (dnsRules chain ds).1) : r.dport = some "53" := by
  unfold dnsRules at h
  rw [seqEmit_of_none _ (by simp)] at h
  dsimp only at h
  rcases List.mem_append.mp h with h1 | h1
  · simp only [List.flatMap_cons, List.flatMap_nil, List.append_nil,
      List.mem_append, List.mem_cons, List.not_mem_nil, or_false] at h1
    rcases h1 with (rfl | rfl) | (rfl | rfl) <;> rfl
  · exact dnsServerLoop_mem ds h1

lemma portLoop_mem {fam : Fam} {chain cidr action : String} {r : Rule} :
    ∀ ports, r ∈ (portLoop fam chain cidr action ports).1 →
      r.dest = some cidr ∧ r.jump = action := by
  intro ports
  induction ports with
  | nil => intro h; simp [portLoop] at h
  | cons p rest ih =>
    intro h
    cases hv : Validation.ValidatePort p with
    | error e =>
      have hev : portLoop fam chain cidr action (p :: rest) = ([], 0, some e) := by
        simp [portLoop, hv]
      rw [hev] at h
      simp at h
    | ok u =>
      have hev : portLoop fam chain cidr action (p :: rest) =
          seqEmit (["tcp", "udp"].map (fun proto =>
            { fam := fam, chain := chain, dest := some cidr, proto := some proto,
              dport := some (toString p), jump := action : Rule }), 2, none)
            (fun _ => portLoop fam chain cidr action rest) := by
        simp [portLoop, hv]
      rw [hev, seqEmit_of_none _ (by simp)] at h
      dsimp only at h
      rcases List.mem_append.mp h with h1 | h1
      · obtain ⟨proto, hproto, hr⟩ := List.mem_map.mp h1
        cases hr
        exact ⟨rfl, rfl⟩
      · exact ih h1

lemma applyNetworkRule_mem {chain action : String} {nr : NetworkRule} {r : Rule}
    (h : r ∈ (applyNetworkRule chain nr action).1) :
    r.dest = some nr.cidr ∧ r.jump = action := by
  cases hc : Validation.ValidateCIDR nr.cidr with
  | error e =>
    have hev : applyNetworkRule chain nr action = ([], 0, some e) := by
      simp [applyNetworkRule, hc]
    rw [hev] at h
    simp at h
  | ok n =>
    cases hd : detectIPVersion nr.cidr with
    | error e =>
      have hev : applyNetworkRule chain nr action = ([], 0, some e) := by
        simp [applyNetworkRule, hc, hd]
      rw [hev] at h
      simp at h
    | ok fam =>
      by_cases hp : nr.ports = []
      · have hev : applyNetworkRule chain nr action =
            ([{ fam := fam, chain := chain, dest := some nr.cidr, jump := action }],
             1, none) := by
          simp [applyNetworkRule, hc, hd, hp]
        rw [hev] at h
        simp only [List.mem_cons, List.not_mem_nil, or_false] at h
        cases h
        exact ⟨rfl, rfl⟩
      · have hev : applyNetworkRule chain nr action =
            portLoop fam chain nr.cidr action nr.ports := by
          simp [applyNetworkRule, hc, hd, hp]
        rw [hev] at h
        exact portLoop_mem nr.ports h

lemma ruleListLoop_mem {chain action : String} {r : Rule} :
    ∀ l, r ∈ (ruleListLoop chain action l).1 →
      ∃ e ∈ l, r.dest = some e.cidr ∧ r.jump = action := by
  intro l
  induction l with
  | nil => intro h; simp [ruleListLoop] at h
  | cons nr rest ih =>
    intro h
    cases ha : (applyNetworkRule chain nr action).2.2 with
    | some e =>
      have hev : ruleListLoop chain action (nr :: rest) =
          ((applyNetworkRule chain nr action).1, 0, some e) := by
        simp [ruleListLoop, ha]
      rw [hev] at h
      exact ⟨nr, List.mem_cons_self nr rest, applyNetworkRule_mem h⟩
    | none =>
      have hev : ruleListLoop chain action (nr :: rest) =
          seqEmit (applyNetworkRule chain nr action)
            (fun _ => ruleListLoop chain action rest) := by
        simp [ruleListLoop, ha]
      rw [hev, seqEmit_of_none _ ha] at h
      dsimp only at h
      rcases List.mem_append.mp h with h1 | h1
      · exact ⟨nr, List.mem_cons_self nr rest, applyNetworkRule_mem h1⟩
      · obtain ⟨e, he, hr⟩ := ih h1
        exact ⟨e, List.mem_cons_of_mem nr he, hr⟩

/-- If every emitted rule is a `DROP` or fails to match, and some rule
matches, the chain verdict is `DROP`. -/
lemma verdict_drop {rules : List Rule} {p : Packet}
    (hall : ∀ r ∈ rules, r.jump = "DROP" ∨ ruleMatches r p = false)
    (hex : ∃ r ∈ rules, ruleMatches r p = true) :
    verdict rules p = some "DROP" := by
  obtain ⟨r, hr, hm⟩ := hex
  have hsome : (rules.find? (fun r => ruleMatches r p)).isSome := by
    rw [List.find?_isSome]
    exact ⟨r, hr, hm⟩
  obtain ⟨r0, hfind⟩ := Option.isSome_iff_exists.mp hsome
  have hm0 : ruleMatches r0 p = true := by
    have := List.find?_some hfind
    simpa using this
  have hmem0 : r0 ∈ rules := List.mem_of_find?_eq_some hfind
  rcases hall r0 hmem0 with hj | hf
  · rw [verdict, hfind]
    simp [hj]
  · rw [hf] at hm0
    exact Bool.noConfusion hm0

end Iptables

/-- C2 (amended): (i) `filterPrivateRanges` keeps a private range exactly
when no parseable whitelist entry overlaps it; (ii) the enforced blacklist
is the deduplicated concatenation of the user blacklist, the mandatory
blacklist and those surviving private ranges, and deduplication preserves
normalised-CIDR membership; (iii) hence each of 10.0.0.0/8, 172.16.0.0/12
and 192.168.0.0/16 that no whitelist entry overlaps ends up (up to CIDR
normalisation) in the enforced blacklist; (iv) the claim's final clause
holds only in `deny` mode: there, a packet on a port other than 53 whose
destination lies in no whitelist entry receives the verdict `DROP`, so the
non-whitelisted remainder of a private range stays blocked.  In `allow`
mode an overlapping whitelist entry removes the whole private range from
the blacklist, so the remainder of the range is NOT blocked (see the
counterexample). -/
theorem c2_private_range_blocking :
    (∀ (wl : List Config.WhitelistEntry) (pr : String) (pn : GoNet.IPNet),
      pr ∈ Config.PrivateRanges → GoNet.parseCIDRStr pr = some pn →
      ((∃ e ∈ Config.filterPrivateRanges wl, e.cidr = pr) ↔
        wl.any (fun e =>
          match GoNet.parseCIDRStr e.cidr with
          | some entryNet => Config.networksOverlap pn entryNet
          | none => false) = false)) ∧
    (∀ (cfg res : Config.NetworkConfig),
      Config.EnforceSecurityRules cfg = .ok res →
      res.blacklist = Config.deduplicateBlacklist ((cfg.blacklist ++
        Config.createMandatoryBlacklist) ++
          Config.filterPrivateRanges cfg.whitelist) ∧
      ∀ c, (∃ e ∈ res.blacklist, Config.normCidr e.cidr = c) ↔
        ∃ e ∈ (cfg.blacklist ++ Config.createMandatoryBlacklist) ++
          Config.filterPrivateRanges cfg.whitelist, Config.normCidr e.cidr = c) ∧
    (∀ (cfg res : Config.NetworkConfig) (pr : String) (pn : GoNet.IPNet),
      Config.EnforceSecurityRules cfg = .ok res →
      pr ∈ Config.PrivateRanges → GoNet.parseCIDRStr pr = some pn →
      cfg.whitelist.any (fun e =>
        match GoNet.parseCIDRStr e.cidr with
        | some entryNet => Config.networksOverlap pn entryNet
        | none => false) = false →
      ∃ e ∈ res.blacklist, Config.normCidr e.cidr = pr) ∧
    (∀ (bs : List String) (chain : String) (policy : Iptables.NetworkPolicy)
      (rules : List Iptables.Rule) (count : Nat) (p : Iptables.Packet),
      Iptables.ApplyRules bs chain policy = (rules, count, none) →
      policy.policy = "deny" →
      p.dport ≠ 53 →
      (∀ e ∈ policy.whitelist, Iptables.destMatches e.cidr p.dst = false) →
      Iptables.verdict rules p = some "DROP") := by
  refine ⟨Config.filterPrivateRanges_mem, ?_, ?_, ?_⟩
  · intro cfg res hres
    have hbl := Config.enforceSecurityRules_ok_blacklist hres
    refine ⟨hbl, fun c => ?_⟩
    rw [hbl]
    exact Config.dedup_norm_mem _ c
  · intro cfg res pr pn hres hpr hparse hany
    have hbl := Config.enforceSecurityRules_ok_blacklist hres
    rw [hbl]
    rw [Config.dedup_norm_mem _ pr]
    obtain ⟨e, he, hec⟩ :=
      (Config.filterPrivateRanges_mem cfg.whitelist pr pn hpr hparse).mpr hany
    refine ⟨e, List.mem_append_right _ he, ?_⟩
    rw [hec]
    have : Config.normCidr pr = pr := by
      rcases (show pr = "10.0.0.0/8" ∨ pr = "172.16.0.0/12" ∨
          pr = "192.168.0.0/16" from by
        simpa [Config.PrivateRanges] using hpr) with rfl | rfl | rfl <;> decide
    exact this
  · intro bs chain policy rules count p happly hpol hport hwl
    obtain ⟨pp, bm, ad, ds, wl, bl⟩ := policy
    simp only at hpol hwl
    subst hpol
    rw [Iptables.applyRules_decomp bs chain "deny" bm ad ds wl bl
      (Or.inr rfl)] at happly
    rw [show (if "deny" = "deny" ∧ wl ≠ [] then
        Iptables.ruleListLoop chain "ACCEPT" wl else ([], 0, none)) =
        Iptables.ruleListLoop chain "ACCEPT" wl from by
      by_cases h : wl = [] <;> simp [h, Iptables.ruleListLoop]] at happly
    rw [show (if "deny" = "allow" ∧ bl ≠ [] then
        Iptables.ruleListLoop chain "DROP" bl else ([], 0, none)) =
        (([], 0, none) : Iptables.Emit) from by simp] at happly
    obtain ⟨hR, hC, hmd, hdns, hwlE, -⟩ :=
      Iptables.seqChain_inversion _ _ _ _ _ _ _ _ happly rfl
        (Iptables.emitIf_count bm _ (fun _ => rfl))
        (Iptables.emitIf_count ad _ (Iptables.dnsRules_count chain ds))
        (fun h => (Iptables.ruleListLoop_none chain "ACCEPT" wl h).2)
        (fun _ => rfl)
    apply Iptables.verdict_drop
    · intro r hr
      rw [hR] at hr
      rcases List.mem_append.mp hr with h1 | hr
      · exact Or.inl (Iptables.bridgeRules_jump h1)
      rcases List.mem_append.mp hr with h1 | hr
      · have hmdm : ∀ r ∈ (if bm then (Iptables.metadataRules chain ad,
            (Iptables.metadataRules chain ad).length, none)
            else (([], 0, none) : Iptables.Emit)).1,
            r.jump = "DROP" ∨ r.dport = some "53" := by
          cases bm
          · simp
          · intro r h
            exact Iptables.metadataRules_mem h
        rcases hmdm r h1 with hj | hd
        · exact Or.inl hj
        · exact Or.inr (Iptables.ruleMatches_dport_false hd hport)
      rcases List.mem_append.mp hr with h1 | hr
      · have hdnm : ∀ r ∈ (if ad then Iptables.dnsRules chain ds
            else (([], 0, none) : Iptables.Emit)).1, r.dport = some "53" := by
          cases ad
          · simp
          · intro r h
            exact Iptables.dnsRules_mem h
        exact Or.inr (Iptables.ruleMatches_dport_false (hdnm r h1) hport)
      rcases List.mem_append.mp hr with h1 | hr
      · obtain ⟨e, he, hdest, hjump⟩ := Iptables.ruleListLoop_mem wl h1
        exact Or.inr (Iptables.ruleMatches_dest_false hdest (hwl e he))
      rcases List.mem_append.mp hr with h1 | hr
      · simp at h1
      · rw [show Iptables.defaultRules chain "deny" =
            [{ fam := .v4, chain := chain, jump := "DROP" },
             { fam := .v6, chain := chain, jump := "DROP" }] from rfl] at hr
        rcases List.mem_cons.mp hr with rfl | hr
        · exact Or.inl rfl
        rcases List.mem_cons.mp hr with rfl | hr
        · exact Or.inl rfl
        · simp at hr
    · refine ⟨{ fam := p.fam, chain := chain, jump := "DROP" }, ?_, ?_⟩
      · rw [hR]
        refine List.mem_append_right _ (List.mem_append_right _
          (List.mem_append_right _ (List.mem_append_right _
            (List.mem_append_right _ ?_))))
        rw [show Iptables.defaultRules chain "deny" =
            [{ fam := .v4, chain := chain, jump := "DROP" },
             { fam := .v6, chain := chain, jump := "DROP" }] from rfl]
        cases p.fam
        · exact List.mem_cons_self _ _
        · exact List.mem_cons_of_mem _ (List.mem_cons_self _ _)
      · simp [Iptables.ruleMatches]

/-- Witness for C2's amended theorem: the bare deny policy drops a non-DNS
packet to a public address. -/
theorem c2_witness :
    Iptables.ApplyRules [] "ISO-0123456789abcdef" { policy := "deny" } =
      ([{ fam := .v4, chain := "ISO-0123456789abcdef", jump := "DROP" },
        { fam := .v6, chain := "ISO-0123456789abcdef", jump := "DROP" }], 2, none) ∧
    Iptables.verdict
      [{ fam := .v4, chain := "ISO-0123456789abcdef", jump := "DROP" },
       { fam := .v6, chain := "ISO-0123456789abcdef", jump := "DROP" }]
      { fam := .v4, dst := [8, 8, 8, 8], proto := "tcp", dport := 443 } =
      some "DROP" :=
  ⟨by decide,
   c2_private_range_blocking.2.2.2 [] "ISO-0123456789abcdef" { policy := "deny" }
     [{ fam := .v4, chain := "ISO-0123456789abcdef", jump := "DROP" },
      { fam := .v6, chain := "ISO-0123456789abcdef", jump := "DROP" }] 2
     { fam := .v4, dst := [8, 8, 8, 8], proto := "tcp", dport := 443 }
     (by decide) rfl (by decide) (by simp)⟩

/-! ## Claim C6 -/

/-- C6 counterexample: reuse is first-in-first-out over
`configIndex[hash]`, not most-recently-released.  Starting from a pool
holding two pooled leases `n1`, `n2` of the same hash, `Acquire(w1, h)`
reuses `n1`; the non-force release appends `n1` at the tail of the index;
the next `Acquire(w2, h)` then reuses `n2`, not the network `w1` had —
refuting the claim's `same networkName` for general pool states. -/
theorem c6_claim_counterexample :
    ((NetworkPool.Acquire 100 "w1" "h" none
        { networks :=
            [("n1", { networkName := "n1", networkID := "id-n1",
                      subnet := "10.1.0.0/24", configHash := "h",
                      driver := "bridge", currentContainer := none,
                      createdAt := 0, lastReleasedAt := none,
                      cleanupAt := none, reuseCount := 0 }),
             ("n2", { networkName := "n2", networkID := "id-n2",
                      subnet := "10.2.0.0/24", configHash := "h",
                      driver := "bridge", currentContainer := none,
                      createdAt := 0, lastReleasedAt := none,
                      cleanupAt := none, reuseCount := 0 })],
          configIndex := [("h", ["n1", "n2"])],
          lastCleanup := 0 }).toOption.bind (fun x =>
      (NetworkPool.Release 200 "w1" x.2.networkName false x.1).toOption.bind
        (fun y =>
          (NetworkPool.Acquire 300 "w2" "h" none y.1).toOption.map (fun z =>
            (x.2.networkName, x.2.reused, y.2, z.2.networkName, z.2.reused))))) =
      some ("n1", true, false, "n2", true) ∧ "n1" ≠ "n2" :=
  ⟨by decide, by decide⟩

namespace NetworkPool

open Iptables (assocLookup assocInsert assocErase assocLookup_insert)

/-- Inversion of a successful `findAvailableNetwork`: the name comes from
`configIndex[hash]` and its lease exists with no current holder. -/
lemma findAvailable_spec {st : PoolState} {h name : String}
    (hf : findAvailableNetwork st h = some name) :
    ∃ ns, assocLookup h st.configIndex = some ns ∧ name ∈ ns ∧
      ∃ e, assocLookup name st.networks = some e ∧
        e.currentContainer = none := by
  unfold findAvailableNetwork at hf
  cases hi : assocLookup h st.configIndex with
  | none => rw [hi] at hf; exact absurd hf (by simp)
  | some ns =>
    rw [hi] at hf
    dsimp only at hf
    have hmem := List.mem_of_find?_eq_some hf
    have hpred := List.find?_some hf
    refine ⟨ns, rfl, hmem, ?_⟩
    cases hl : assocLookup name st.networks with
    | none => rw [hl] at hpred; exact absurd hpred (by simp)
    | some e =>
      rw [hl] at hpred
      dsimp only at hpred
      exact ⟨e, rfl, Option.isNone_iff_eq_none.mp hpred⟩

/-- A successful `Acquire` leaves a lease for the returned name, held by
the acquiring container, keyed and hashed consistently (for pool states
whose lease keys and index entries are consistent). -/
lemma acquire_ok_lease {st st1 : PoolState} {r1 : AcquireResult}
    {now : Nat} {w1 h : String} {create : Option (String × String × String)}
    (hwf1 : ∀ name e, assocLookup name st.networks = some e →
      e.networkName = name)
    (hwf2 : ∀ hash ns nm, assocLookup hash st.configIndex = some ns →
      nm ∈ ns → ∀ e, assocLookup nm st.networks = some e → e.configHash = hash)
    (hacq : Acquire now w1 h create st = .ok (st1, r1)) :
    ∃ e1, assocLookup r1.networkName st1.networks = some e1 ∧
      e1.currentContainer = some w1 ∧ e1.configHash = h ∧
      e1.networkName = r1.networkName := by
  unfold Acquire at hacq
  cases hfa : findAvailableNetwork st h with
  | some name =>
    rw [hfa] at hacq
    dsimp only at hacq
    cases hl : assocLookup name st.networks with
    | none => rw [hl] at hacq; exact absurd hacq (by simp)
    | some entry =>
      rw [hl] at hacq
      dsimp only at hacq
      obtain ⟨ns, hi, hmem, -⟩ := findAvailable_spec hfa
      have hkey : entry.networkName = name := hwf1 name entry hl
      have hhash : entry.configHash = h := hwf2 h ns name hi hmem entry hl
      rw [Except.ok.injEq, Prod.mk.injEq] at hacq
      obtain ⟨hst1, hr1⟩ := hacq
      refine ⟨{ entry with currentContainer := some w1, cleanupAt := none, reuseCount := entry.reuseCount + 1 }, ?_, rfl, hhash, ?_⟩
      · rw [← hst1, ← hr1]
        dsimp only
        rw [hkey]
        exact assocLookup_insert name _ st.networks
      · rw [← hr1]
  | none =>
    rw [hfa] at hacq
    dsimp only at hacq
    unfold createNetwork at hacq
    cases create with
    | none => exact absurd hacq (by simp)
    | some t =>
      obtain ⟨nn, id, sub⟩ := t
      dsimp only at hacq
      rw [Except.ok.injEq, Prod.mk.injEq] at hacq
      obtain ⟨hst1, hr1⟩ := hacq
      refine ⟨{ networkName := nn, networkID := id, subnet := sub,
                configHash := h, driver := "bridge",
                currentContainer := some w1, createdAt := now,
                lastReleasedAt := none, cleanupAt := none, reuseCount := 0 },
        ?_, rfl, rfl, ?_⟩
      · rw [← hst1, ← hr1]
        exact assocLookup_insert nn _ st.networks
      · rw [← hr1]

/-- A successful non-force `Release` of a held lease pools it: `cleanupAt`
is set and the name is appended to the (here empty) index list. -/
lemma release_ok_pool {st1 st2 : PoolState} {now2 : Nat} {w1 n h : String}
    {e1 : NetworkEntry} {b : Bool}
    (hl : assocLookup n st1.networks = some e1)
    (hh : e1.currentContainer = some w1)
    (hch : e1.configHash = h)
    (hidx : (assocLookup h st1.configIndex).getD [] = [])
    (hrel : Release now2 w1 n false st1 = .ok (st2, b)) :
    st2 = { st1 with
      networks := assocInsert n
        { e1 with configHash := h, currentContainer := none, lastReleasedAt := some now2, cleanupAt := some (now2 + defaultTTL) } st1.networks,
      configIndex := assocInsert h [n] st1.configIndex } ∧ b = false := by
  unfold Release at hrel
  rw [hl] at hrel
  dsimp only at hrel
  rw [if_neg (by simp [hh])] at hrel
  simp only [Bool.false_eq_true, if_false] at hrel
  rw [hch, hidx] at hrel
  simp only [List.nil_append] at hrel
  rw [Except.ok.injEq, Prod.mk.injEq] at hrel
  obtain ⟨hst2, hb⟩ := hrel
  exact ⟨hst2.symm, hb.symm⟩

end NetworkPool

/-- C6 (amended): in a consistent pool state (lease keys match their
`networkName`, index entries reference leases of their hash), if
`Acquire(w1, h)` succeeds and afterwards NO other pooled lease of hash `h`
remains in the index, then after a non-force release of the acquired
network a subsequent `Acquire(w2, h)` reuses exactly that network: it
returns `reused = true` with the same `networkName`, reassigns the lease
to `w2`, clears its `cleanupAt`, increments its `reuseCount`, and removes
the name from `configIndex[h]`.  Without the emptiness side condition the
pool reuses the OLDEST pooled lease of the hash, not the one just
released (see the counterexample). -/
theorem c6_pool_reuse :
    ∀ (st st1 st2 : NetworkPool.PoolState) (r1 : NetworkPool.AcquireResult)
      (now1 now2 now3 : Nat) (w1 w2 h : String)
      (create1 create2 : Option (String × String × String)) (b : Bool),
      (∀ name e, Iptables.assocLookup name st.networks = some e →
        e.networkName = name) →
      (∀ hash ns nm, Iptables.assocLookup hash st.configIndex = some ns →
        nm ∈ ns → ∀ e, Iptables.assocLookup nm st.networks = some e →
          e.configHash = hash) →
      NetworkPool.Acquire now1 w1 h create1 st = .ok (st1, r1) →
      (Iptables.assocLookup h st1.configIndex).getD [] = [] →
      NetworkPool.Release now2 w1 r1.networkName false st1 = .ok (st2, b) →
      ∃ st3 r2 e2,
        NetworkPool.Acquire now3 w2 h create2 st2 = .ok (st3, r2) ∧
        r2.reused = true ∧
        r2.networkName = r1.networkName ∧
        Iptables.assocLookup r1.networkName st2.networks = some e2 ∧
        Iptables.assocLookup r1.networkName st3.networks =
          some { e2 with currentContainer := some w2, cleanupAt := none, reuseCount := e2.reuseCount + 1 } ∧
        Iptables.assocLookup h st3.configIndex = some [] := by
  intro st st1 st2 r1 now1 now2 now3 w1 w2 h create1 create2 b
  intro hwf1 hwf2 hacq hidx hrel
  obtain ⟨e1, hl1, hh1, hch1, hnm1⟩ :=
    NetworkPool.acquire_ok_lease hwf1 hwf2 hacq
  obtain ⟨hst2, -⟩ := NetworkPool.release_ok_pool hl1 hh1 hch1 hidx hrel
  set n := r1.networkName with hn
  set e3 : NetworkPool.NetworkEntry :=
    { e1 with configHash := h, currentContainer := none, lastReleasedAt := some now2, cleanupAt := some (now2 + NetworkPool.defaultTTL) } with he3
  have hlook2 : Iptables.assocLookup n st2.networks = some e3 := by
    rw [hst2]
    exact Iptables.assocLookup_insert n e3 st1.networks
  have hidx2 : Iptables.assocLookup h st2.configIndex = some [n] := by
    rw [hst2]
    exact Iptables.assocLookup_insert h [n] st1.configIndex
  have hfa2 : NetworkPool.findAvailableNetwork st2 h = some n := by
    unfold NetworkPool.findAvailableNetwork
    rw [hidx2]
    dsimp only
    rw [List.find?_cons_of_pos]
    rw [hlook2]
    rfl
  have hacq3 : NetworkPool.Acquire now3 w2 h create2 st2 =
      .ok ({ st2 with
          networks := Iptables.assocInsert n
            { e3 with currentContainer := some w2, cleanupAt := none, reuseCount := e3.reuseCount + 1 } st2.networks,
          configIndex := Iptables.assocInsert h
            (NetworkPool.removeString [n] n) st2.configIndex },
        { networkName := e3.networkName, networkID := e3.networkID,
          subnet := e3.subnet, reused := true }) := by
    unfold NetworkPool.Acquire
    rw [hfa2]
    dsimp only
    rw [hlook2]
    dsimp only
    rw [hidx2]
  refine ⟨_, _, e3, hacq3, rfl, ?_, hlook2, ?_, ?_⟩
  · show e3.networkName = n
    rw [he3]
    exact hnm1
  · dsimp only
    exact Iptables.assocLookup_insert n _ st2.networks
  · dsimp only
    rw [show NetworkPool.removeString [n] n = [] from by
      simp [NetworkPool.removeString]]
    exact Iptables.assocLookup_insert h [] st2.configIndex

/-- Witness for C6's amended theorem: create one network, release it, and
watch the second acquire reuse it. -/
theorem c6_witness :
    ∃ st3 r2 e2,
      NetworkPool.Acquire 300 "w2" "h" none
          { networks :=
              [("n1", { networkName := "n1", networkID := "id1",
                        subnet := "10.1.0.0/24", configHash := "h",
                        driver := "bridge", currentContainer := none,
                        createdAt := 100, lastReleasedAt := some 200,
                        cleanupAt := some (200 + NetworkPool.defaultTTL),
                        reuseCount := 0 })],
            configIndex := [("h", ["n1"])], lastCleanup := 0 } =
        .ok (st3, r2) ∧
      r2.reused = true ∧
      r2.networkName = "n1" ∧
      Iptables.assocLookup "n1"
          [("n1", ({ networkName := "n1", networkID := "id1",
                     subnet := "10.1.0.0/24", configHash := "h",
                     driver := "bridge", currentContainer := none,
                     createdAt := 100, lastReleasedAt := some 200,
                     cleanupAt := some (200 + NetworkPool.defaultTTL),
                     reuseCount := 0 } : NetworkPool.NetworkEntry))] = some e2 ∧
      Iptables.assocLookup "n1" st3.networks =
        some { e2 with currentContainer := some "w2", cleanupAt := none, reuseCount := e2.reuseCount + 1 } ∧
      Iptables.assocLookup "h" st3.configIndex = some [] :=
  c6_pool_reuse
    { networks := [], configIndex := [], lastCleanup := 0 }
    { networks :=
        [("n1", { networkName := "n1", networkID := "id1",
                  subnet := "10.1.0.0/24", configHash := "h",
                  driver := "bridge", currentContainer := some "w1",
                  createdAt := 100, lastReleasedAt := none,
                  cleanupAt := none, reuseCount := 0 })],
      configIndex := [], lastCleanup := 0 }
    { networks :=
        [("n1", { networkName := "n1", networkID := "id1",
                  subnet := "10.1.0.0/24", configHash := "h",
                  driver := "bridge", currentContainer := none,
                  createdAt := 100, lastReleasedAt := some 200,
                  cleanupAt := some (200 + NetworkPool.defaultTTL),
                  reuseCount := 0 })],
      configIndex := [("h", ["n1"])], lastCleanup := 0 }
    { networkName := "n1", networkID := "id1", subnet := "10.1.0.0/24",
      reused := false }
    100 200 300 "w1" "w2" "h" (some ("n1", "id1", "10.1.0.0/24")) none false
    (by intro name e hh; simp [Iptables.assocLookup] at hh)
    (by intro hash ns nm hh; simp [Iptables.assocLookup] at hh)
    rfl (by decide) rfl

/-! ## Claim C7 -/

namespace NetworkPool

/-- The single lease of the C7 trace, at various lifecycle points. -/
def poolEntry (holder : Option String) (lra cln : Option Nat) (rc : Nat) :
    NetworkEntry :=
  { networkName := "n1", networkID := "id1", subnet := "10.1.0.0/24",
    configHash := "h", driver := "bridge", currentContainer := holder,
    createdAt := 100, lastReleasedAt := lra, cleanupAt := cln, reuseCount := rc }

def poolSt0 : PoolState := { networks := [], configIndex := [], lastCleanup := 0 }

def poolSt1 : PoolState :=
  { networks := [("n1", poolEntry (some "w1") none none 0)],
    configIndex := [], lastCleanup := 0 }

def poolSt2 : PoolState :=
  { networks := [("n1", poolEntry none (some 200) (some 3800) 0)],
    configIndex := [("h", ["n1"])], lastCleanup := 0 }

def poolSt3 : PoolState :=
  { networks := [("n1", poolEntry (some "w2") (some 200) none 1)],
    configIndex := [("h", [])], lastCleanup := 0 }

end NetworkPool

/-- C7 counterexample: the state reached by acquire → non-force release →
acquire (reuse) stores `configIndex = [("h", [])]` — the reuse empties the
bucket but leaves the key — while reconciliation rebuilds the index from
the (now held) leases as `[]`.  The stored and rebuilt `config_index` are
therefore not equal for every reachable state. -/
theorem c7_claim_counterexample :
    ∃ st : NetworkPool.PoolState, NetworkPool.Reachable st ∧
      st.configIndex = [("h", [])] ∧
      NetworkPool.rebuildIndex st.networks = [] ∧
      (NetworkPool.validateNetworks ["id1"] st).configIndex = [] ∧
      st.configIndex ≠ NetworkPool.rebuildIndex st.networks := by
  have h1 : NetworkPool.Reachable NetworkPool.poolSt1 :=
    NetworkPool.Reachable.acquire (NetworkPool.Reachable.init 0)
      (fun name id subnet hc => rfl)
      (show NetworkPool.Acquire 100 "w1" "h"
          (some ("n1", "id1", "10.1.0.0/24")) NetworkPool.poolSt0 =
        .ok (NetworkPool.poolSt1,
          { networkName := "n1", networkID := "id1",
            subnet := "10.1.0.0/24", reused := false }) from rfl)
  have h2 : NetworkPool.Reachable NetworkPool.poolSt2 :=
    NetworkPool.Reachable.release h1
      (show NetworkPool.Release 200 "w1" "n1" false NetworkPool.poolSt1 =
        .ok (NetworkPool.poolSt2, false) from rfl)
  have h3 : NetworkPool.Reachable NetworkPool.poolSt3 :=
    NetworkPool.Reachable.acquire h2
      (fun name id subnet hc => Option.noConfusion hc)
      (show NetworkPool.Acquire 300 "w2" "h" none NetworkPool.poolSt2 =
        .ok (NetworkPool.poolSt3,
          { networkName := "n1", networkID := "id1",
            subnet := "10.1.0.0/24", reused := true }) from rfl)
  exact ⟨NetworkPool.poolSt3, h3, rfl, rfl, by decide, by decide⟩

namespace Iptables

lemma assocLookup_insert_ne {α : Type} {k k2 : String} (hne : k ≠ k2) (v : α)
    (l : List (String × α)) :
    assocLookup k2 (assocInsert k v l) = assocLookup k2 l := by
  induction l with
  | nil => simp [assocInsert, assocLookup, hne]
  | cons p t ih =>
    by_cases hp : p.1 = k
    · simp [assocInsert, hp, assocLookup, hne, Ne.symm hne]
    · simp [assocInsert, hp, assocLookup, ih]

end Iptables

namespace NetworkPool

open Iptables (assocLookup assocInsert assocLookup_insert assocLookup_insert_ne)

/-- One JSON-encoded lease decodes back to itself. -/
lemma decodeEntry_encodeEntry (e : NetworkEntry) :
    decodeEntry (encodeEntry e) = some e := by
  obtain ⟨nn, nid, sub, ch, dr, cc, ca, lra, cln, rc⟩ := e
  cases cc <;> cases lra <;> cases cln <;> rfl

lemma mapM_encodeEntries (l : List (String × NetworkEntry)) :
    (l.map (fun p => (p.1, encodeEntry p.2))).mapM
      (fun p => (decodeEntry p.2).map (fun e => (p.1, e))) = some l := by
  induction l with
  | nil => rfl
  | cons p t ih =>
    rw [List.map_cons, List.mapM_cons]
    simp only [decodeEntry_encodeEntry]
    have ihl : List.mapM.loop
        (fun p => Option.map (fun e => (p.1, e)) (decodeEntry p.2))
        (List.map (fun p => (p.1, encodeEntry p.2)) t) [] = some t := ih
    simp [ihl]

lemma mapM_strNames (ns : List String) :
    (ns.map Json.str).mapM (fun j =>
      match j with | Json.str s => some s | _ => none) = some ns := by
  induction ns with
  | nil => rfl
  | cons s t ih =>
    rw [List.map_cons, List.mapM_cons]
    have ihl : List.mapM.loop
        (fun j => match j with | Json.str s => some s | _ => none)
        (List.map Json.str t) [] = some t := ih
    simp [ihl]

lemma decodeNames_encode (ns : List String) :
    decodeNames (Json.arr (ns.map Json.str)) = some ns :=
  mapM_strNames ns

lemma mapM_encodeIndex (idx : List (String × List String)) :
    (idx.map (fun p => (p.1, Json.arr (p.2.map Json.str)))).mapM
      (fun p => (decodeNames p.2).map (fun ns => (p.1, ns))) = some idx := by
  induction idx with
  | nil => rfl
  | cons p t ih =>
    rw [List.map_cons, List.mapM_cons]
    simp only [decodeNames_encode]
    have ihl : List.mapM.loop
        (fun p => Option.map (fun ns => (p.1, ns)) (decodeNames p.2))
        (List.map (fun p => (p.1, Json.arr (List.map Json.str p.2))) t) [] =
        some t := ih
    simp [ihl]

/-- Round trip of `persist`/`loadState` at the document level: decoding an
encoded pool state returns it unchanged. -/
lemma decodeState_encodeState (st : PoolState) :
    decodeState (encodeState st) = some st := by
  obtain ⟨nets, idx, lc⟩ := st
  simp only [encodeState, decodeState, jlookup]
  have h1 : List.mapM.loop
      (fun p => Option.map (fun e => (p.1, e)) (decodeEntry p.2))
      (List.map (fun p => (p.1, encodeEntry p.2)) nets) [] = some nets :=
    mapM_encodeEntries nets
  have h2 : List.mapM.loop
      (fun p => Option.map (fun ns => (p.1, ns)) (decodeNames p.2))
      (List.map (fun p => (p.1, Json.arr (List.map Json.str p.2))) idx) [] =
      some idx := mapM_encodeIndex idx
  simp [h1, h2, decodeNat]

/-- The generalized fold of `rebuildIndex`: a name lands in a hash bucket
exactly when it is already there or a holderless lease of that hash with
that key is processed. -/
lemma rebuildIndex_mem (hash name : String) :
    ∀ (l : List (String × NetworkEntry)) (idx : List (String × List String)),
    (name ∈ ((assocLookup hash (l.foldl (fun idx p =>
        if p.2.currentContainer.isNone then
          assocInsert p.2.configHash
            ((assocLookup p.2.configHash idx).getD [] ++ [p.1]) idx
        else idx) idx)).getD [])) ↔
      name ∈ ((assocLookup hash idx).getD []) ∨
      ∃ e, (name, e) ∈ l ∧ e.currentContainer = none ∧ e.configHash = hash := by
  intro l
  induction l with
  | nil => intro idx; simp
  | cons p t ih =>
    intro idx
    obtain ⟨k, v⟩ := p
    rw [List.foldl_cons]
    cases hv : v.currentContainer with
    | some c =>
      dsimp only
      simp only [Option.isNone_some, Bool.false_eq_true, if_false]
      rw [ih idx]
      constructor
      · rintro (h | ⟨e, he, hcc, hch⟩)
        · exact Or.inl h
        · exact Or.inr ⟨e, List.mem_cons_of_mem _ he, hcc, hch⟩
      · rintro (h | ⟨e, he, hcc, hch⟩)
        · exact Or.inl h
        · rcases List.mem_cons.mp he with hpe | het
          · have hev : e = v := congrArg Prod.snd hpe
            rw [hev, hv] at hcc
            exact absurd hcc (by simp)
          · exact Or.inr ⟨e, het, hcc, hch⟩
    | none =>
      dsimp only
      simp only [Option.isNone_none, eq_self_iff_true, if_true]
      rw [ih _]
      by_cases hh : v.configHash = hash
      · subst hh
        rw [assocLookup_insert]
        simp only [Option.getD_some, List.mem_append,
          List.mem_singleton]
        constructor
        · rintro ((h | rfl) | ⟨e, he, hcc, hch⟩)
          · exact Or.inl h
          · exact Or.inr ⟨v, List.mem_cons_self _ _, hv, rfl⟩
          · exact Or.inr ⟨e, List.mem_cons_of_mem _ he, hcc, hch⟩
        · rintro (h | ⟨e, he, hcc, hch⟩)
          · exact Or.inl (Or.inl h)
          · rcases List.mem_cons.mp he with hpe | het
            · have hk : name = k := congrArg Prod.fst hpe
              exact Or.inl (Or.inr hk)
            · exact Or.inr ⟨e, het, hcc, hch⟩
      · rw [assocLookup_insert_ne hh]
        constructor
        · rintro (h | ⟨e, he, hcc, hch⟩)
          · exact Or.inl h
          · exact Or.inr ⟨e, List.mem_cons_of_mem _ he, hcc, hch⟩
        · rintro (h | ⟨e, he, hcc, hch⟩)
          · exact Or.inl h
          · rcases List.mem_cons.mp he with hpe | het
            · have hev : e = v := congrArg Prod.snd hpe
              rw [hev] at hch
              exact absurd hch hh
            · exact Or.inr ⟨e, het, hcc, hch⟩

/-- `rebuildIndex` contains exactly the holderless leases, keyed by their
config hash. -/
lemma rebuildIndex_spec (networks : List (String × NetworkEntry))
    (hash name : String) :
    (name ∈ ((assocLookup hash (rebuildIndex networks)).getD [])) ↔
      ∃ e, (name, e) ∈ networks ∧ e.currentContainer = none ∧
        e.configHash = hash := by
  have h := rebuildIndex_mem hash name networks []
  rw [rebuildIndex]
  rw [h]
  simp [Iptables.assocLookup]

/-- The reconciliation index after `validateNetworks`: exactly the
holderless surviving leases, keyed by their hash. -/
lemma validateNetworks_index (dockerIDs : List String) (st : PoolState)
    (hash name : String) :
    (name ∈ ((assocLookup hash
        ((validateNetworks dockerIDs st).configIndex)).getD [])) ↔
      ∃ e, (name, e) ∈ st.networks ∧ dockerIDs.contains e.networkID = true ∧
        e.currentContainer = none ∧ e.configHash = hash := by
  unfold validateNetworks
  dsimp only
  rw [rebuildIndex_spec]
  constructor
  · rintro ⟨e, he, hcc, hch⟩
    rw [List.mem_filter] at he
    exact ⟨e, he.1, he.2, hcc, hch⟩
  · rintro ⟨e, he, hdk, hcc, hch⟩
    exact ⟨e, List.mem_filter.mpr ⟨he, hdk⟩, hcc, hch⟩

end NetworkPool

/-- C7 (amended): persisting then reloading is the identity on the pool
state — `networks`, `config_index` and `last_cleanup` round-trip exactly
through the JSON document.  The reconciliation index, however, is NOT in
general equal to the stored one (see the counterexample: a reuse leaves an
empty bucket behind); what holds is that the rebuilt index contains
exactly the holderless surviving leases, keyed by their config hash. -/
theorem c7_persist_roundtrip :
    (∀ st : NetworkPool.PoolState,
      NetworkPool.decodeState (NetworkPool.encodeState st) = some st) ∧
    (∀ (dockerIDs : List String) (st : NetworkPool.PoolState)
      (hash name : String),
      (name ∈ ((Iptables.assocLookup hash
          ((NetworkPool.validateNetworks dockerIDs st).configIndex)).getD [])) ↔
        ∃ e, (name, e) ∈ st.networks ∧
          dockerIDs.contains e.networkID = true ∧
          e.currentContainer = none ∧ e.configHash = hash) :=
  ⟨NetworkPool.decodeState_encodeState, NetworkPool.validateNetworks_index⟩

/-- Witness for C7: the persisted counterexample state reloads to itself,
and its reconciliation index is empty while a pooled variant keeps the
lease. -/
theorem c7_witness :
    NetworkPool.decodeState (NetworkPool.encodeState NetworkPool.poolSt3) =
      some NetworkPool.poolSt3 ∧
    (("n1" ∈ ((Iptables.assocLookup "h"
        ((NetworkPool.validateNetworks ["id1"]
          NetworkPool.poolSt2).configIndex)).getD [])) ↔
      ∃ e, ("n1", e) ∈ NetworkPool.poolSt2.networks ∧
        (["id1"].contains e.networkID) = true ∧
        e.currentContainer = none ∧ e.configHash = "h") :=
  ⟨c7_persist_roundtrip.1 NetworkPool.poolSt3,
   c7_persist_roundtrip.2 ["id1"] NetworkPool.poolSt2 "h" "n1"⟩
